import Mathlib

/-!
# QGroundControl tile cache worker: a relational model

A shallow embedding of `src/QtLocationPlugin/QGCTileCacheWorker.cpp`.

The SQLite database is a record of four tables, each a list of rows in
insertion (rowid) order.  Every SQL statement of the worker is a function on
that record:

* `INSERT` appends a row; an `INTEGER PRIMARY KEY` column left out of the
  column list receives the largest key in the table plus one; a `UNIQUE`
  violation makes a plain `INSERT` fail and an `INSERT OR IGNORE` do nothing;
* `DELETE ... WHERE p` keeps the rows on which `p` is false;
* `UPDATE ... WHERE p` rewrites the rows on which `p` is true, in place;
* `SELECT ... WHERE p` lists the rows on which `p` is true, in table order,
  `ORDER BY` is a stable sort and `LIMIT n` keeps the first `n` rows.

Values spliced into the SQL text with `QString::arg` are compared as values
(as if they were bound parameters).  Strings are never null, so a `NOT NULL`
column cannot reject them.  Statements fail only on a constraint violation;
input/output failures of the storage layer and the ceiling `2 ^ 63 - 1` of
automatic keys are outside the model.  The clock
`QDateTime::currentSecsSinceEpoch()` is the parameter `now`.  Counters of the
C++ code are natural numbers or integers reduced modulo `2 ^ 32` or `2 ^ 64`
where the code stores them in `quint32`, `quint64` or `qint64`.
-/

namespace QGC

/-! ## Rows and tables -/

/-- Content of a byte array (`QByteArray`). -/
abbrev Bytes := List UInt8

/-- Storage of a `REAL` column.  The worker only stores coordinates and hands
them on; it performs no arithmetic on them. -/
abbrev Real64 := Rat

/-- The sentinel `UINT64_MAX`: "no tile set given" on a tile, "not read yet" in
the cached default set id. -/
def UINT64_MAX : Nat := 2 ^ 64 - 1

/-- A value of the `Tiles.type` column: `_saveTile` binds the tile's type
string, `_importSets` and `_exportSets` bind an `int`. -/
inductive SqlValue where
  | int (i : Int)
  | text (s : String)
  deriving DecidableEq, Repr

/-- Conversion `QVariant::toString` of a column value. -/
def SqlValue.toQString : SqlValue → String
  | .int i => toString i
  | .text s => s

/-- A row of `Tiles` (`tileID INTEGER PRIMARY KEY`, `hash TEXT NOT NULL UNIQUE`). -/
structure TileRow where
  tileID : Nat
  hash : String
  format : String
  tile : Bytes
  size : Nat
  type : SqlValue
  date : Nat
  deriving DecidableEq, Repr

/-- A row of `TileSets` (`setID INTEGER PRIMARY KEY`, `name TEXT NOT NULL UNIQUE`).
The defaults are the `DEFAULT` clauses of the `CREATE TABLE` statement. -/
structure TileSetRow where
  setID : Nat
  name : String
  typeStr : Option String := none
  topleftLat : Real64 := 0
  topleftLon : Real64 := 0
  bottomRightLat : Real64 := 0
  bottomRightLon : Real64 := 0
  minZoom : Int := 3
  maxZoom : Int := 3
  type : Int := -1
  numTiles : Nat := 0
  defaultSet : Int := 0
  date : Nat := 0
  deriving DecidableEq, Repr

/-- A row of `SetTiles`: tile `tileID` is a member of set `setID`.  The table
declares no constraint. -/
structure SetTileRow where
  setID : Nat
  tileID : Nat
  deriving DecidableEq, Repr

/-- A row of `TilesDownload` (`hash TEXT NOT NULL UNIQUE`). -/
structure DownloadRow where
  setID : Nat
  hash : String
  type : Int
  x : Int
  y : Int
  z : Int
  state : Int := 0
  deriving DecidableEq, Repr

/-- The four tables of an open cache database. -/
structure DB where
  Tiles : List TileRow := []
  TileSets : List TileSetRow := []
  SetTiles : List SetTileRow := []
  TilesDownload : List DownloadRow := []
  deriving DecidableEq, Repr

/-- Key given by SQLite to a row inserted without an explicit
`INTEGER PRIMARY KEY`: one more than the largest key in use (1 in an empty
table). -/
def nextRowId (keys : List Nat) : Nat :=
  keys.foldl max 0 + 1

/-! ## Strings spliced into the text of a statement

Several statements of the worker are built with `QString::arg` from a text in
which the string stands between double quotes, as in `WHERE hash = "%1"`.
SQLite reads `"s"` as a name first and as the string `s` only when no column
has that name, and a double quote inside `s` ends the quoted text early. -/

/-- Code of a character, a capital ASCII letter counting as its small letter:
SQLite compares names without regard to the case of ASCII letters. -/
def foldCase (c : Char) : Nat :=
  if 65 ≤ c.toNat ∧ c.toNat ≤ 90 then c.toNat + 32 else c.toNat

/-- The string `s` spells the name `column`, as SQLite compares names. -/
def isName (s column : String) : Prop :=
  s.toList.map foldCase = column.toList.map foldCase

instance (s column : String) : Decidable (isName s column) := by
  unfold isName
  infer_instance

/-- The columns of `Tiles`. -/
def tilesColumns : List String :=
  ["tileID", "hash", "format", "tile", "size", "type", "date"]

/-- The columns of `TileSets`. -/
def tileSetsColumns : List String :=
  ["setID", "name", "typeStr", "topleftLat", "topleftLon", "bottomRightLat", "bottomRightLon",
   "minZoom", "maxZoom", "type", "numTiles", "defaultSet", "date"]

/-- The columns of `TilesDownload`. -/
def downloadColumns : List String :=
  ["setID", "hash", "type", "x", "y", "z", "state"]

/-- The names under which every table gives the key of a row. -/
def rowidNames : List String :=
  ["rowid", "oid", "_rowid_"]

/-- The text `"s"`, in a statement over a table with the columns `columns`, is
read by SQLite as the string `s`: `s` is not empty, holds no double quote
(code 34) and no NUL, and spells neither a column of the table nor a name of
the row key. -/
def readsAsText (columns : List String) (s : String) : Prop :=
  s ≠ "" ∧ (∀ c ∈ s.toList, c.toNat ≠ 34 ∧ c.toNat ≠ 0) ∧
    ∀ column ∈ columns ++ rowidNames, ¬ isName s column

instance (columns : List String) (s : String) : Decidable (readsAsText columns s) := by
  unfold readsAsText
  infer_instance

/-- The answers of SQLite to the spliced statements of the worker for the
strings that the model does not read itself (strings with a double quote,
names of columns).  SQLite is not part of the worker, so these answers are
parameters: `selectTile` and `selectSetID` give the first row of the queries
of `_getTile` and `_findTileSetID` (nothing when the query fails or has no
row), `updateDownload` and `deleteDownload` give `TilesDownload` after the
`UPDATE` and the `DELETE` on the download queue, `renameSet` gives `TileSets`
after the `UPDATE` of `_renameTileSet` (nothing when the statement fails).
The defaults are the answers of statements that fail. -/
structure SqlEngine where
  selectTile : DB → String → Option TileRow := fun _ _ => none
  selectSetID : DB → String → Option Nat := fun _ _ => none
  updateDownload : DB → Int → Nat → String → List DownloadRow := fun db _ _ _ => db.TilesDownload
  deleteDownload : DB → Nat → String → List DownloadRow := fun db _ _ => db.TilesDownload
  renameSet : DB → String → Nat → Option (List TileSetRow) := fun _ _ _ => none

/-! ## Task payloads -/

/-- The tile carried by a save task and returned by a fetch task
(`QGCCacheTile`): hash, image bytes, format, type and target set. -/
structure QGCCacheTile where
  hash : String
  img : Bytes
  format : String
  type : String
  tileSet : Nat := UINT64_MAX
  deriving DecidableEq, Repr

/-! ## The worker -/

/-- State of `QGCCacheWorker` that the database operations read and write.  The
connection `_db` is the content of the four tables together with `_sqlite`,
the engine that answers the statements sent through the connection. -/
structure Worker where
  _db : DB := {}
  _sqlite : SqlEngine := {}
  _valid : Bool := false
  _failed : Bool := false
  _defaultSet : Nat := UINT64_MAX
  _totalCount : Nat := 0
  _totalSize : Nat := 0
  _defaultCount : Nat := 0
  _defaultSize : Nat := 0

open Worker

/-- Model of `QGCCacheWorker::_testTask`: a task on an invalid worker gets the error
"No Cache Database". -/
def Worker._testTask (w : Worker) : Except String Unit :=
  if !w._valid then .error "No Cache Database" else .ok ()

/-- Model of `QGCCacheWorker::_getDefaultTileSet`: the cached id when there is one,
else the `setID` of the first row with `defaultSet = 1` (which is then
cached), else the constant 1. -/
def Worker._getDefaultTileSet (w : Worker) : Nat × Worker :=
  if w._defaultSet ≠ UINT64_MAX then (w._defaultSet, w)
  else
    match w._db.TileSets.find? (fun r => r.defaultSet = 1) with
    | some r => (r.setID, { w with _defaultSet := r.setID })
    | none => (1, w)

/-- Statement `INSERT INTO Tiles(hash, format, tile, size, type, date)`: fails when the
hash is already stored, else appends the row under a fresh `tileID` and
returns that id (`lastInsertId`). -/
def insertTile (db : DB) (hash format : String) (img : Bytes) (type : SqlValue)
    (now : Nat) : Option (Nat × DB) :=
  if db.Tiles.any (fun r => r.hash = hash) then none
  else
    let tileID := nextRowId (db.Tiles.map (·.tileID))
    some (tileID, { db with Tiles := db.Tiles ++
      [{ tileID := tileID, hash := hash, format := format, tile := img,
         size := img.length, type := type, date := now }] })

/-- Statement `INSERT INTO SetTiles(tileID, setID)`, also with `OR IGNORE`: the table
has no constraint, so the row is always appended. -/
def insertSetTile (db : DB) (tileID setID : Nat) : DB :=
  { db with SetTiles := db.SetTiles ++ [{ setID := setID, tileID := tileID }] }

/-- Model of `QGCCacheWorker::_saveTile`. -/
def Worker._saveTile (now : Nat) (w : Worker) (tile : QGCCacheTile) : Worker :=
  if !w._valid then w
  else
    match insertTile w._db tile.hash tile.format tile.img (.text tile.type) now with
    | none => w
    | some (tileID, db) =>
      let w1 := { w with _db := db }
      let (setID, w2) :=
        if tile.tileSet = UINT64_MAX then w1._getDefaultTileSet else (tile.tileSet, w1)
      { w2 with _db := insertSetTile w2._db tileID setID }

/-- Query `SELECT tile, format, type FROM Tiles WHERE hash = "<hash>"` of `_getTile`, first
row.  When the spliced hash is read as text this is the first row with that
hash.  When it spells the column `tile` the statement compares each hash, a
text, with the bytes of its tile, which are never equal: no row.  For every
other hash the row is the answer of the engine. -/
def Worker.selectByHash (w : Worker) (hash : String) : Option TileRow :=
  if readsAsText tilesColumns hash then w._db.Tiles.find? (fun r => r.hash = hash)
  else if isName hash "tile" then none
  else w._sqlite.selectTile w._db hash

/-- Model of `QGCCacheWorker::_getTile`: the first row of the query for the requested
hash, as a tile carrying the requested hash, or the error "Tile not in cache
database". -/
def Worker._getTile (w : Worker) (hash : String) : Except String QGCCacheTile :=
  match w._testTask with
  | .error e => .error e
  | .ok () =>
    match w.selectByHash hash with
    | some r => .ok { hash := hash, img := r.tile, format := r.format, type := r.type.toQString }
    | none => .error "Tile not in cache database"

/-! ### Derived relations -/

/-- Result of an aggregate `SUM(size)`: SQLite sums 64-bit signed integers and
raises "integer overflow" (the statement fails) when the total leaves that
range. -/
def sqlSum (sizes : List Nat) : Option Nat :=
  if sizes.sum < 2 ^ 63 then some sizes.sum else none

/-- Rows of `SetTiles A JOIN SetTiles B ON A.tileID = B.tileID WHERE B.setID = id`. -/
def selfJoin (st : List SetTileRow) (id : Nat) : List (SetTileRow × SetTileRow) :=
  st.flatMap fun a =>
    (st.filter fun b => a.tileID = b.tileID ∧ b.setID = id).map fun b => (a, b)

/-- The subquery
`SELECT A.tileID FROM SetTiles A JOIN SetTiles B ON A.tileID = B.tileID
 WHERE B.setID = id GROUP BY A.tileID HAVING COUNT(A.tileID) = 1`:
the groups of the join that hold exactly one row. -/
def uniqueTileIDs (st : List SetTileRow) (id : Nat) : List Nat :=
  let j := selfJoin st id
  (j.map (·.1.tileID)).dedup.filter fun t =>
    (j.filter fun p => p.1.tileID = t).length = 1

/-- Tile `t` is unique to set `id`: its only membership row is the row
`(id, t)`. -/
def UniqueTo (st : List SetTileRow) (t id : Nat) : Prop :=
  st.filter (fun r => r.tileID = t) = [{ setID := id, tileID := t }]

instance (st : List SetTileRow) (t id : Nat) : Decidable (UniqueTo st t id) := by
  unfold UniqueTo
  infer_instance

/-- Query `SELECT ... FROM Tiles WHERE tileID IN (<unique subquery for id>)`. -/
def uniqueTiles (db : DB) (id : Nat) : List TileRow :=
  db.Tiles.filter fun r => r.tileID ∈ uniqueTileIDs db.SetTiles id

/-- Query `SELECT ... FROM Tiles A INNER JOIN SetTiles B on A.tileID = B.tileID
WHERE B.setID = id`: one tile row per matching membership row. -/
def savedTiles (db : DB) (id : Nat) : List TileRow :=
  db.Tiles.flatMap fun a =>
    (db.SetTiles.filter fun b => a.tileID = b.tileID ∧ b.setID = id).map fun _ => a

/-- Model of `QGCCacheWorker::_updateTotals`: recomputes the four cached totals (the
counts are `quint32`); a failing query leaves its two totals as they were. -/
def Worker._updateTotals (w : Worker) : Worker :=
  let w1 :=
    match sqlSum (w._db.Tiles.map (·.size)) with
    | some s => { w with _totalCount := w._db.Tiles.length % 2 ^ 32, _totalSize := s }
    | none => w
  let (id, w2) := w1._getDefaultTileSet
  let u := uniqueTiles w2._db id
  match sqlSum (u.map (·.size)) with
  | some s => { w2 with _defaultCount := u.length % 2 ^ 32, _defaultSize := s }
  | none => w2

/-- Model of `QGCCacheWorker::_findTile`: the `tileID` stored for a hash, 0 when there
is none. -/
def Worker._findTile (w : Worker) (hash : String) : Nat :=
  match w._db.Tiles.find? (fun r => r.hash = hash) with
  | some r => r.tileID
  | none => 0

/-! ### Deleting a tile set -/

/-- Model of `QGCCacheWorker::_deleteTileSet(qulonglong id)`: four `DELETE` statements,
then `_updateTotals`. -/
def Worker._deleteTileSet (w : Worker) (id : Nat) : Worker :=
  let db := w._db
  let db1 := { db with Tiles := db.Tiles.filter fun r => r.tileID ∉ uniqueTileIDs db.SetTiles id }
  let db2 := { db1 with TilesDownload := db1.TilesDownload.filter fun r => r.setID ≠ id }
  let db3 := { db2 with TileSets := db2.TileSets.filter fun r => r.setID ≠ id }
  let db4 := { db3 with SetTiles := db3.SetTiles.filter fun r => r.setID ≠ id }
  ({ w with _db := db4 })._updateTotals

/-- Model of `QGCCacheWorker::_deleteTileSet(QGCMapTask*)`: the task entry point. -/
def Worker._deleteTileSetTask (w : Worker) (setID : Nat) : Worker × Except String Unit :=
  match w._testTask with
  | .error e => (w, .error e)
  | .ok () => (w._deleteTileSet setID, .ok ())

/-! ### Creating a tile set -/

/-- The tile range `QGCTileSet` that `UrlFactory::getTileCount` returns for a
bounding box at one zoom level. -/
structure QGCTileSet where
  tileX0 : Int
  tileX1 : Int
  tileY0 : Int
  tileY1 : Int
  deriving DecidableEq, Repr

/-- The functions of `UrlFactory` (`QGCMapUrlEngine`) that the worker calls.
Their code is not part of the worker, so they are parameters of the model. -/
structure UrlFactory where
  getTileCount : Int → Real64 → Real64 → Real64 → Real64 → String → QGCTileSet
  getTileHash : String → Int → Int → Int → String
  getQtMapIdFromProviderType : String → Int
  getProviderTypeFromQtMapId : Int → String
  averageSizeForType : String → Nat

/-- The set descriptor `QGCCachedTileSet` handed to and from the foreground
thread (the counts are `quint32`, the sizes `quint64`). -/
structure QGCCachedTileSet where
  name : String
  id : Nat := 0
  mapTypeStr : String := ""
  topleftLat : Real64 := 0
  topleftLon : Real64 := 0
  bottomRightLat : Real64 := 0
  bottomRightLon : Real64 := 0
  minZoom : Int := 3
  maxZoom : Int := 3
  type : String := ""
  totalTileCount : Nat := 0
  totalTileSize : Nat := 0
  savedTileCount : Nat := 0
  savedTileSize : Nat := 0
  uniqueTileCount : Nat := 0
  uniqueTileSize : Nat := 0
  defaultSet : Bool := false
  creationDate : Nat := 0
  deriving DecidableEq, Repr

/-- The part of `_updateSetTotals` for a set that is not the default set: the
saved totals by the join of `Tiles` and `SetTiles`, the (estimated) total
size, and the count and size of the tiles unique to the set.  When the first
query fails the descriptor is returned as it came; when the query for the
unique tiles fails its count and size stay 0. -/
def namedSetTotals (uf : UrlFactory) (db : DB) (set : QGCCachedTileSet) : QGCCachedTileSet :=
  let saved := savedTiles db set.id
  match sqlSum (saved.map (·.size)) with
  | none => set
  | some savedSize =>
    let savedCount := saved.length % 2 ^ 32
    let avg0 := uf.averageSizeForType set.type
    let avg :=
      if set.totalTileCount ≤ savedCount then avg0
      else if savedCount > 10 ∧ savedSize ≠ 0 then savedSize / savedCount
      else avg0
    let totalSize :=
      if set.totalTileCount ≤ savedCount then savedSize
      else (avg * set.totalTileCount) % 2 ^ 64
    let u := uniqueTiles db set.id
    let ucount := if (sqlSum (u.map (·.size))).isSome then u.length % 2 ^ 32 else 0
    let usize := (sqlSum (u.map (·.size))).getD 0
    let expectedUcount := (set.totalTileCount + 2 ^ 32 - savedCount) % 2 ^ 32
    { set with
      savedTileCount := savedCount
      savedTileSize := savedSize
      totalTileSize := totalSize
      uniqueTileCount := if ucount = 0 then expectedUcount else ucount
      uniqueTileSize := if ucount = 0 then (expectedUcount * avg) % 2 ^ 64 else usize }

/-- Model of `QGCCacheWorker::_updateSetTotals`: the default set takes the four totals
that `_updateTotals` has just recomputed, any other set is measured by
`namedSetTotals`. -/
def Worker._updateSetTotals (uf : UrlFactory) (w : Worker) (set : QGCCachedTileSet) :
    Worker × QGCCachedTileSet :=
  if set.defaultSet then
    let w1 := w._updateTotals
    (w1, { set with savedTileCount := w1._totalCount, savedTileSize := w1._totalSize,
                    totalTileCount := w1._defaultCount, totalTileSize := w1._defaultSize })
  else
    (w, namedSetTotals uf w._db set)

/-- The values of a loop `for (int i = a; i <= b; i++)`. -/
def intRange (a b : Int) : List Int :=
  (List.range (b + 1 - a).toNat).map fun i => a + (i : Int)

/-- The `(x, y, z)` tiles of a set's plan, in the order the three nested loops
of `_createTileSet` visit them: every zoom from `minZoom` to `maxZoom`, and
at each zoom the tile range that `getTileCount` gives for the bounding box. -/
def planTiles (uf : UrlFactory) (set : QGCCachedTileSet) : List (Int × Int × Int) :=
  (intRange set.minZoom set.maxZoom).flatMap fun z =>
    let r := uf.getTileCount z set.topleftLon set.topleftLat set.bottomRightLon
      set.bottomRightLat set.type
    (intRange r.tileX0 r.tileX1).flatMap fun x =>
      (intRange r.tileY0 r.tileY1).map fun y => (x, y, z)

/-- Statement `INSERT OR IGNORE INTO TilesDownload(...)`: nothing happens when the hash
is already in the table (for any set), else the row is appended. -/
def insertDownload (db : DB) (row : DownloadRow) : DB :=
  if db.TilesDownload.any (fun r => r.hash = row.hash) then db
  else { db with TilesDownload := db.TilesDownload ++ [row] }

/-- The hash `UrlFactory::getTileHash(type, x, y, z)` of the plan tile
`(x, y, z)`. -/
def planHash (uf : UrlFactory) (type : String) (t : Int × Int × Int) : String :=
  uf.getTileHash type t.1 t.2.1 t.2.2

/-- Body of the innermost loop of `_createTileSet` for the tile `(x, y, z)`:
a tile found in `Tiles` becomes a member of the set, any other tile is
queued for download in state 0. -/
def addPlanTile (uf : UrlFactory) (type : String) (setID : Nat) (w : Worker)
    (t : Int × Int × Int) : Worker :=
  let hash := planHash uf type t
  let tileID := w._findTile hash
  if tileID = 0 then
    let row : DownloadRow :=
      { setID := setID, hash := hash, type := uf.getQtMapIdFromProviderType type,
        x := t.1, y := t.2.1, z := t.2.2, state := 0 }
    { w with _db := insertDownload w._db row }
  else
    { w with _db := insertSetTile w._db tileID setID }

/-- Statement `INSERT INTO TileSets(name, typeStr, ..., numTiles, date)` of
`_createTileSet`: fails when the name is taken, else appends the row under a
fresh `setID`, which it returns. -/
def insertTileSet (uf : UrlFactory) (now : Nat) (db : DB) (set : QGCCachedTileSet) :
    Option (Nat × DB) :=
  if db.TileSets.any (fun r => r.name = set.name) then none
  else
    let setID := nextRowId (db.TileSets.map (·.setID))
    some (setID, { db with TileSets := db.TileSets ++
      [{ setID := setID, name := set.name, typeStr := some set.mapTypeStr,
         topleftLat := set.topleftLat, topleftLon := set.topleftLon,
         bottomRightLat := set.bottomRightLat, bottomRightLon := set.bottomRightLon,
         minZoom := set.minZoom, maxZoom := set.maxZoom,
         type := uf.getQtMapIdFromProviderType set.type,
         numTiles := set.totalTileCount, date := now }] })

/-- Model of `QGCCacheWorker::_createTileSet`: the new worker state and either the
error of the task or the saved descriptor.  The two `INSERT OR IGNORE` of the
loop cannot violate a constraint, so the error exit inside the loop is never
taken. -/
def Worker._createTileSet (uf : UrlFactory) (now : Nat) (w : Worker) (set : QGCCachedTileSet) :
    Worker × Except String QGCCachedTileSet :=
  if !w._valid then (w, .error "Error saving tile set")
  else
    match insertTileSet uf now w._db set with
    | none => (w, .error "Error saving tile set")
    | some (setID, db) =>
      let set1 := { set with id := setID }
      let w1 := (planTiles uf set1).foldl (addPlanTile uf set1.type setID) { w with _db := db }
      ((w1._updateSetTotals uf set1).1, .ok (w1._updateSetTotals uf set1).2)

/-! ### The download queue -/

/-- Modelled from the spec: the enumeration `QGCTile::TileState` is declared
in a header that is not part of the worker's file.  The spec gives
`state ∈ {Pending = 0, Downloading, Complete, …}` with further error states;
the worker itself writes the literal 0 for a pending row. -/
inductive TileState where
  | StatePending
  | StateDownloading
  | StateComplete
  | StateError
  deriving DecidableEq, Repr

/-- The `static_cast<int>` of a tile state. -/
def TileState.toInt : TileState → Int
  | .StatePending => 0
  | .StateDownloading => 1
  | .StateComplete => 2
  | .StateError => 3

/-- The tile descriptor `QGCTile` built by `_getTileDownloadList`. -/
structure QGCTile where
  hash : String
  type : String
  x : Int
  y : Int
  z : Int
  deriving DecidableEq, Repr

/-- The clause `LIMIT n`: the first `n` rows, every row when `n` is negative. -/
def sqlLimit {α : Type} (n : Int) (rows : List α) : List α :=
  if n < 0 then rows else rows.take n.toNat

/-- The rows of `TilesDownload` after
`UPDATE TilesDownload SET state = st WHERE setID = id AND hash = 'h'`, the hash
compared as a text. -/
def markRows (rows : List DownloadRow) (st : Int) (id : Nat) (h : String) :
    List DownloadRow :=
  rows.map fun r => if r.setID = id ∧ r.hash = h then { r with state := st } else r

/-- Statement `UPDATE TilesDownload SET state = st WHERE setID = id AND hash = "<h>"`.  When
the spliced hash is read as text the rows of the set with that hash are
written.  When it spells the column `hash` the condition holds for every row
of the set, and all of them are written.  For every other hash the table is
the answer of the engine. -/
def setDownloadState (db : DB) (sqlite : SqlEngine) (st : Int) (id : Nat) (h : String) : DB :=
  { db with TilesDownload :=
      if readsAsText downloadColumns h then markRows db.TilesDownload st id h
      else if isName h "hash" then
        db.TilesDownload.map fun r => if r.setID = id then { r with state := st } else r
      else sqlite.updateDownload db st id h }

/-- Statement `DELETE FROM TilesDownload WHERE setID = id AND hash = "<h>"`, read as
`setDownloadState` reads its hash. -/
def deleteDownload (db : DB) (sqlite : SqlEngine) (id : Nat) (h : String) : DB :=
  { db with TilesDownload :=
      if readsAsText downloadColumns h then
        db.TilesDownload.filter fun r => ¬(r.setID = id ∧ r.hash = h)
      else if isName h "hash" then db.TilesDownload.filter fun r => ¬(r.setID = id)
      else sqlite.deleteDownload db id h }

/-- Query `SELECT hash, type, x, y, z FROM TilesDownload WHERE setID = id AND state = 0`:
the pending rows of a set, in table order. -/
def pendingRows (db : DB) (setID : Nat) : List DownloadRow :=
  db.TilesDownload.filter fun r => r.setID = setID ∧ r.state = 0

/-- Conversion of an integer to `int`: reduction modulo `2 ^ 32` into the
range `-2 ^ 31 ≤ i < 2 ^ 31`. -/
def toInt32 (i : Int) : Int :=
  let m := i % 2 ^ 32
  if m < 2 ^ 31 then m else m - 2 ^ 32

/-- The descriptor that `_getTileDownloadList` builds from a selected row: the
hash as a string, type, x, y and z read with `toInt`, the type sent through
`getProviderTypeFromQtMapId`. -/
def tileOfRow (uf : UrlFactory) (r : DownloadRow) : QGCTile :=
  { hash := r.hash, type := uf.getProviderTypeFromQtMapId (toInt32 r.type),
    x := toInt32 r.x, y := toInt32 r.y, z := toInt32 r.z }

/-- Model of `QGCCacheWorker::_getTileDownloadList`: selects up to `count` rows of the
set in state 0, builds their descriptors, then marks the row of each
descriptor as downloading, one `UPDATE` per descriptor. -/
def Worker._getTileDownloadList (uf : UrlFactory) (w : Worker) (setID : Nat) (count : Int) :
    Worker × Except String (List QGCTile) :=
  match w._testTask with
  | .error e => (w, .error e)
  | .ok () =>
    let rows := sqlLimit count (pendingRows w._db setID)
    let tiles := rows.map (tileOfRow uf)
    let db := tiles.foldl
      (fun db t => setDownloadState db w._sqlite TileState.StateDownloading.toInt setID t.hash)
      w._db
    ({ w with _db := db }, .ok tiles)

/-- Model of `QGCCacheWorker::_updateTileDownloadState`: a `DELETE` for the state
Complete, else an `UPDATE` of the whole set when the hash is the string "*"
(that statement holds no hash), else an `UPDATE` with the hash spliced in. -/
def Worker._updateTileDownloadState (w : Worker) (setID : Nat) (hash : String) (state : TileState) :
    Worker × Except String Unit :=
  match w._testTask with
  | .error e => (w, .error e)
  | .ok () =>
    let db1 :=
      if state = TileState.StateComplete then deleteDownload w._db w._sqlite setID hash
      else if hash = "*" then
        { w._db with TilesDownload := w._db.TilesDownload.map fun r =>
            if r.setID = setID then { r with state := state.toInt } else r }
      else
        setDownloadState w._db w._sqlite state.toInt setID hash
    ({ w with _db := db1 }, .ok ())

/-! ### Pruning -/

/-- Conversion of an integer to `qint64`: reduction modulo `2 ^ 64` into the
range `-2 ^ 63 ≤ i < 2 ^ 63`. -/
def toInt64 (i : Int) : Int :=
  let m := i % 2 ^ 64
  if m < 2 ^ 63 then m else m - 2 ^ 64

/-- The first loop of `_pruneCache`,
`while (query.next() && (amount >= 0)) { tlist << tileID; amount -= size; }`
over the selected rows: the `tileID`s put on the list. -/
def pruneList : List TileRow → Int → List Nat
  | [], _ => []
  | r :: rows, amount =>
    if amount ≥ 0 then r.tileID :: pruneList rows (toInt64 (amount - r.size)) else []

/-- The rows selected by `_pruneCache`: the tiles unique to set `id`,
`ORDER BY date ASC LIMIT 128`. -/
def pruneCandidates (db : DB) (id : Nat) : List TileRow :=
  ((uniqueTiles db id).insertionSort fun a b => a.date ≤ b.date).take 128

/-- Model of `QGCCacheWorker::_pruneCache` for a request of `amount` bytes (`quint64`). -/
def Worker._pruneCache (w : Worker) (amount : Nat) : Worker × Except String Unit :=
  match w._testTask with
  | .error e => (w, .error e)
  | .ok () =>
    let id := w._getDefaultTileSet.1
    let w1 := w._getDefaultTileSet.2
    let tlist := pruneList (pruneCandidates w1._db id) (toInt64 amount)
    let tiles := tlist.foldl (fun ts t => ts.filter fun r => r.tileID ≠ t) w1._db.Tiles
    ({ w1 with _db := { w1._db with Tiles := tiles } }, .ok ())

/-! ### Schema creation and reset -/

/-- Content of a database file: each of the four tables is there or not. -/
structure Schema where
  Tiles : Option (List TileRow) := none
  TileSets : Option (List TileSetRow) := none
  SetTiles : Option (List SetTileRow) := none
  TilesDownload : Option (List DownloadRow) := none
  deriving DecidableEq, Repr

/-- The file content of an open database. -/
def Schema.ofDB (db : DB) : Schema :=
  { Tiles := some db.Tiles, TileSets := some db.TileSets, SetTiles := some db.SetTiles,
    TilesDownload := some db.TilesDownload }

/-- The tables of a database file (a missing table has no rows). -/
def Schema.toDB (s : Schema) : DB :=
  { Tiles := s.Tiles.getD [], TileSets := s.TileSets.getD [], SetTiles := s.SetTiles.getD [],
    TilesDownload := s.TilesDownload.getD [] }

/-- Statement `CREATE TABLE IF NOT EXISTS`: an existing table is kept as it is. -/
def createIfNotExists {α : Type} (t : Option (List α)) : Option (List α) :=
  match t with
  | some rows => some rows
  | none => some []

/-- Model of `QGCCacheWorker::_createDB`: creates the missing tables and, when
`createDefault` is set and no set is named "Default Tile Set", inserts the
default set (`INSERT INTO TileSets(name, defaultSet, date)`, every other
column at its default).  Returns `res` and the new file content. -/
def _createDB (now : Nat) (s : Schema) (createDefault : Bool) : Bool × Schema :=
  let s1 := { s with Tiles := createIfNotExists s.Tiles }
  let s2 := { s1 with TileSets := createIfNotExists s1.TileSets }
  let s3 := { s2 with SetTiles := createIfNotExists s2.SetTiles }
  let s4 := { s3 with TilesDownload := createIfNotExists s3.TilesDownload }
  let res := true
  if res && createDefault then
    let sets := s4.TileSets.getD []
    if sets.any (fun r => r.name = "Default Tile Set") then (res, s4)
    else
      let row : TileSetRow :=
        { setID := nextRowId (sets.map (·.setID)), name := "Default Tile Set",
          defaultSet := 1, date := now }
      (res, { s4 with TileSets := some (sets ++ [row]) })
  else (res, s4)

/-- The statements of `_resetCacheDatabase` on the file: the four
`DROP TABLE`, then `_createDB` with `createDefault = true`. -/
def resetSchema (now : Nat) (s : Schema) : Bool × Schema :=
  let s1 := { s with Tiles := none }
  let s2 := { s1 with TileSets := none }
  let s3 := { s2 with SetTiles := none }
  let s4 := { s3 with TilesDownload := none }
  _createDB now s4 true

/-- Model of `QGCCacheWorker::_resetCacheDatabase`. -/
def Worker._resetCacheDatabase (now : Nat) (w : Worker) : Worker × Except String Unit :=
  match w._testTask with
  | .error e => (w, .error e)
  | .ok () =>
    let res := (resetSchema now (Schema.ofDB w._db)).1
    let s := (resetSchema now (Schema.ofDB w._db)).2
    ({ w with _db := s.toDB, _valid := res }, .ok ())

/-! ### Listing the tile sets -/

/-- The order `ORDER BY defaultSet DESC, name ASC` of the two queries over
`TileSets`: a row with a larger `defaultSet` comes first, rows with the same
`defaultSet` come by name (names compared character by character, which is
the order of strings). -/
def setOrder (a b : TileSetRow) : Prop :=
  b.defaultSet < a.defaultSet ∨
    (a.defaultSet = b.defaultSet ∧ ¬ b.name.toList < a.name.toList)

instance : DecidableRel setOrder := fun a b => by
  unfold setOrder
  infer_instance

/-- Query `SELECT * FROM TileSets ORDER BY defaultSet DESC, name ASC`. -/
def orderedSets (db : DB) : List TileSetRow :=
  db.TileSets.insertionSort setOrder

/-- The descriptor that `_getTileSets` fills from a row of `TileSets`, before
its totals are derived (`numTiles` is read with `toUInt`, a `NULL` string
reads as the empty string). -/
def setOfRow (uf : UrlFactory) (r : TileSetRow) : QGCCachedTileSet :=
  { name := r.name
    id := r.setID
    mapTypeStr := r.typeStr.getD ""
    topleftLat := r.topleftLat
    topleftLon := r.topleftLon
    bottomRightLat := r.bottomRightLat
    bottomRightLon := r.bottomRightLon
    minZoom := r.minZoom
    maxZoom := r.maxZoom
    type := uf.getProviderTypeFromQtMapId r.type
    totalTileCount := r.numTiles % 2 ^ 32
    defaultSet := decide (r.defaultSet ≠ 0)
    creationDate := r.date }

/-- The loop of `_getTileSets` over the selected rows: each row becomes a
descriptor, `_updateSetTotals` derives its totals, and the descriptor is
handed to the task. -/
def fetchSets (uf : UrlFactory) : List TileSetRow → Worker → Worker × List QGCCachedTileSet
  | [], w => (w, [])
  | r :: rows, w =>
    let w1 := (w._updateSetTotals uf (setOfRow uf r)).1
    let set := (w._updateSetTotals uf (setOfRow uf r)).2
    ((fetchSets uf rows w1).1, set :: (fetchSets uf rows w1).2)

/-- Model of `QGCCacheWorker::_getTileSets`: the worker afterwards and the descriptors
given to `setTileSetFetched`, in order. -/
def Worker._getTileSets (uf : UrlFactory) (w : Worker) :
    Worker × Except String (List QGCCachedTileSet) :=
  match w._testTask with
  | .error e => (w, .error e)
  | .ok () => ((fetchSets uf (orderedSets w._db) w).1, .ok (fetchSets uf (orderedSets w._db) w).2)

/-! ### Import -/

/-- Value of a string of decimal digits read after the value `acc`; nothing
when a character is not a digit. -/
def digitsValue (acc : Nat) : List Char → Option Nat
  | [] => some acc
  | c :: cs => if c.isDigit then digitsValue (acc * 10 + (c.toNat - 48)) cs else none

/-- The integer that a text spells: decimal digits after an optional sign,
blanks around them ignored. -/
def readInt (s : String) : Option Int :=
  let cs := ((s.toList.dropWhile Char.isWhitespace).reverse.dropWhile Char.isWhitespace).reverse
  match cs with
  | [] => none
  | '-' :: ds => if ds = [] then none else (digitsValue 0 ds).map fun n => -(n : Int)
  | '+' :: ds => if ds = [] then none else (digitsValue 0 ds).map fun n => (n : Int)
  | ds => (digitsValue 0 ds).map fun n => (n : Int)

/-- Conversion `QVariant::toInt` of a column value: an integer is cut to 32
bits, a text reads as the `int` it spells and as 0 when it spells none. -/
def SqlValue.toInt : SqlValue → Int
  | .int i => toInt32 i
  | .text s =>
    match readInt s with
    | some i => if -2 ^ 31 ≤ i ∧ i < 2 ^ 31 then i else 0
    | none => 0

/-- Model of `QGCCacheWorker::_findTileSetID`: the statement
`SELECT setID FROM TileSets WHERE name = "%1"` with the name spliced into its
text, and the `setID` of the first row of the answer.  A name that reads as
text selects the sets with that name.  The name of the column `name` compares
the column with itself, which holds for every row (the column is
`NOT NULL`).  Any other name is the engine's answer. -/
def Worker._findTileSetID (w : Worker) (name : String) : Option Nat :=
  if readsAsText tileSetsColumns name then
    (w._db.TileSets.find? fun r => r.name = name).map (·.setID)
  else if isName name "name" then
    (w._db.TileSets.find? fun _ => true).map (·.setID)
  else
    w._sqlite.selectSetID w._db name

/-- A set of the database carries the name. -/
def nameInUse (db : DB) (name : String) : Prop :=
  ∃ r ∈ db.TileSets, r.name = name

instance (db : DB) (name : String) : Decidable (nameInUse db name) := by
  unfold nameInUse
  infer_instance

/-- The number format `%02d` for a count that is not negative. -/
def twoDigits (n : Nat) : String :=
  if n < 10 then "0" ++ toString n else toString n

/-- The name `QString::asprintf("%s %02d", name.toLatin1().constData(), n)`.
The parameter `latin1` is the passage of the name through `toLatin1` and the
`%s` of `asprintf`; it leaves a name of ASCII characters as it is. -/
def testName (latin1 : String → String) (name : String) (testCount : Nat) : String :=
  latin1 name ++ " " ++ twoDigits testCount

/-- The loop `while (true)` of `_importSets` that looks for a free name: each
round increments `testCount`, builds the name and stops when no set has it or
when `testCount > 99`.  The first argument bounds the number of rounds; 100
rounds always reach the second exit. -/
def uniqueNameLoop (latin1 : String → String) (w : Worker) (name : String) :
    Nat → Nat → String
  | 0, testCount => testName latin1 name (testCount + 1)
  | fuel + 1, testCount =>
    if (w._findTileSetID (testName latin1 name (testCount + 1))).isNone ∨ testCount + 1 > 99 then
      testName latin1 name (testCount + 1)
    else
      uniqueNameLoop latin1 w name fuel (testCount + 1)

/-- The name under which `_importSets` creates the target set of a source set
that is not the default set. -/
def importSetName (latin1 : String → String) (w : Worker) (name : String) : String :=
  if (w._findTileSetID name).isSome then uniqueNameLoop latin1 w name 100 0 else name

/-- The row that `_importSets` binds for the source row `s` under the name
`name` and that receives the key `setID`: the fields of the source row as the
loop read them (`toInt`, `toUInt`, a `NULL` string as the empty string),
`defaultSet = 0` and the date of the import. -/
def importedRow (now : Nat) (s : TileSetRow) (name : String) (setID : Nat) : TileSetRow :=
  { setID := setID, name := name, typeStr := some (s.typeStr.getD ""),
    topleftLat := s.topleftLat, topleftLon := s.topleftLon,
    bottomRightLat := s.bottomRightLat, bottomRightLon := s.bottomRightLon,
    minZoom := toInt32 s.minZoom, maxZoom := toInt32 s.maxZoom, type := toInt32 s.type,
    numTiles := s.numTiles % 2 ^ 32, defaultSet := 0, date := now }

/-- Statement `INSERT INTO TileSets(name, typeStr, ..., numTiles, defaultSet, date)` of
`_importSets` for the source row `s` under the name `name`: fails when the
name is taken, else appends the row under a fresh `setID`, which it returns.
The branch that runs it has `defaultSet = 0`. -/
def insertImportedSet (now : Nat) (db : DB) (s : TileSetRow) (name : String) :
    Option (Nat × DB) :=
  if db.TileSets.any (fun r => r.name = name) then none
  else
    let setID := nextRowId (db.TileSets.map (·.setID))
    some (setID, { db with TileSets := db.TileSets ++ [importedRow now s name setID] })

/-- Body of the loop of `_importSets` over the tiles of a source set: the tile
is inserted into our `Tiles`; when that succeeds it is linked to the target
set and counted as saved. -/
def importTile (now : Nat) (insertSetID : Nat) (acc : Worker × Nat) (t : TileRow) :
    Worker × Nat :=
  match insertTile acc.1._db t.hash t.format t.tile (.int t.type.toInt) now with
  | some r => ({ acc.1 with _db := insertSetTile r.2 r.1 insertSetID }, acc.2 + 1)
  | none => acc

/-- Statement `UPDATE TileSets SET numTiles = count WHERE setID = id`. -/
def updateNumTiles (db : DB) (id : Nat) (count : Nat) : DB :=
  { db with TileSets := db.TileSets.map fun r =>
      if r.setID = id then { r with numTiles := count } else r }

/-- The variables of `_importSets` that live across the source sets: the
worker, the outstanding `tileCount`, `currentCount` and the error string of
the task. -/
structure ImportState where
  w : Worker
  tileCount : Nat
  currentCount : Nat := 0
  error : Option String := none

/-- The second half of a round of the loop of `_importSets`, once the target
set `insertSetID` is known and the worker is `w1`: the tiles unique to the
source set `s` are imported, `numTiles` of the target is recomputed when a
tile was saved, `tileCount` is lowered by the number of tiles found but not
saved, and a new target set without a saved tile is deleted again. -/
def importSetTiles (now : Nat) (src : Schema) (s : TileSetRow) (st : ImportState)
    (insertSetID : Nat) (w1 : Worker) : ImportState :=
  let tiles := uniqueTiles src.toDB s.setID
  let tilesFound := tiles.length
  let w2 := (tiles.foldl (importTile now insertSetID) (w1, 0)).1
  let tilesSaved := (tiles.foldl (importTile now insertSetID) (w1, 0)).2
  let w3 :=
    if tilesSaved > 0 then
      { w2 with _db := updateNumTiles w2._db insertSetID (savedTiles w2._db insertSetID).length }
    else w2
  let uniqueTiles := tilesFound - tilesSaved
  let tileCount := if uniqueTiles < st.tileCount then st.tileCount - uniqueTiles else 0
  let w4 := if tilesSaved = 0 ∧ s.defaultSet = 0 then w3._deleteTileSet insertSetID else w3
  { w := w4, tileCount := tileCount, currentCount := st.currentCount + tilesSaved,
    error := st.error }

/-- The first half of a round of the loop of `_importSets`: the target set
and the worker after its creation.  A source set with `defaultSet = 0` gets a
new target set under `importSetName` (nothing when that insert fails), any
other is merged into our default set. -/
def importTarget (latin1 : String → String) (now : Nat) (w : Worker) (s : TileSetRow) :
    Option (Nat × Worker) :=
  if s.defaultSet = 0 then
    (insertImportedSet now w._getDefaultTileSet.2._db s
        (importSetName latin1 w._getDefaultTileSet.2 s.name)).map
      fun r => (r.1, { w._getDefaultTileSet.2 with _db := r.2 })
  else some (w._getDefaultTileSet.1, w._getDefaultTileSet.2)

/-- One round of the loop of `_importSets` over the source sets, for the
source row `s` of the import file `src`; the flag is false when the round
ends in `break`, which it does with an error when the target set cannot be
created.  When the query for the tiles fails (no `SetTiles` in the file) the
round ends after the creation of the set. -/
def importSet (latin1 : String → String) (now : Nat) (src : Schema) (st : ImportState)
    (s : TileSetRow) : ImportState × Bool :=
  match importTarget latin1 now st.w s with
  | none =>
    ({ st with w := st.w._getDefaultTileSet.2,
               error := some "Error adding imported tile set to database" }, false)
  | some c =>
    if src.SetTiles.isNone then ({ st with w := c.2 }, true)
    else (importSetTiles now src s st c.1 c.2, true)

/-- The loop of `_importSets` over the source sets, left at the first round
that ends in `break`. -/
def importLoop (latin1 : String → String) (now : Nat) (src : Schema) :
    List TileSetRow → ImportState → ImportState
  | [], st => st
  | s :: rest, st =>
    if (importSet latin1 now src st s).2 then
      importLoop latin1 now src rest (importSet latin1 now src st s).1
    else (importSet latin1 now src st s).1

/-- The part of the merge branch of `_importSets` that runs while the import
file `src` is open, up to the end of the loop over its sets.  `tileCount`
starts as the number of rows of the file's `Tiles` (0 when that query fails);
the sets are visited, in the order of `setOrder`, only when it is positive;
the task gets the error "No tile set in database" when the query for the sets
fails. -/
def importVisit (latin1 : String → String) (now : Nat) (w : Worker) (src : Schema) :
    ImportState :=
  if (src.Tiles.getD []).length > 0 then
    match src.TileSets with
    | some sets =>
      importLoop latin1 now src (sets.insertionSort setOrder)
        { w := w, tileCount := (src.Tiles.getD []).length }
    | none =>
      { w := w, tileCount := (src.Tiles.getD []).length, error := some "No tile set in database" }
  else { w := w, tileCount := (src.Tiles.getD []).length }

/-- The merge branch of `QGCCacheWorker::_importSets` on the import file `file`
(nothing when the file cannot be opened): the final variables of the import
and the error string left on the task.  The error "No unique tiles in
imported database" is set last, when `tileCount` is 0.  The progress reports
are not modelled. -/
def importMerge (latin1 : String → String) (now : Nat) (w : Worker) (file : Option Schema) :
    ImportState :=
  match file with
  | none => { w := w, tileCount := 0, error := some "Error opening import database" }
  | some src =>
    if (importVisit latin1 now w src).tileCount = 0 then
      { importVisit latin1 now w src with error := some "No unique tiles in imported database" }
    else importVisit latin1 now w src

/-- Model of `QGCCacheWorker::_init` when the database file, of content `file`, can be
opened: `_createDB` runs on the file with `createDefault = true`, `_valid` is
its result and `_failed` the opposite.  No other member of the worker is
written. -/
def Worker._init (now : Nat) (w : Worker) (file : Schema) : Worker :=
  { w with _db := (_createDB now file true).2.toDB
           _valid := (_createDB now file true).1
           _failed := !(_createDB now file true).1 }

/-- The replace branch of `QGCCacheWorker::_importSets`: the database file is replaced
by a copy of the import file and `_init` runs on it.  The cached default set
id and the totals of the worker are not touched. -/
def importReplace (now : Nat) (w : Worker) (file : Schema) : Worker :=
  w._init now file

/-- Model of `QGCCacheWorker::_importSets`: the worker afterwards and the error left on
the task, if any. -/
def Worker._importSets (latin1 : String → String) (now : Nat) (w : Worker)
    (file : Option Schema) (replace : Bool) : Worker × Option String :=
  match w._testTask with
  | .error e => (w, some e)
  | .ok () =>
    if replace then (importReplace now w (file.getD {}), none)
    else ((importMerge latin1 now w file).w, (importMerge latin1 now w file).error)

/-! ### Export -/

/-- The row that `_exportSets` binds for the descriptor `set` in its
`INSERT INTO TileSets`, under the key `setID`: the descriptor's name, type
string, corners and zoom levels, the map id of its type, its
`totalTileCount` as `numTiles`, its default flag, and the time of the export
as date. -/
def exportedRow (uf : UrlFactory) (now : Nat) (setID : Nat) (set : QGCCachedTileSet) :
    TileSetRow :=
  { setID := setID, name := set.name, typeStr := some set.mapTypeStr,
    topleftLat := set.topleftLat, topleftLon := set.topleftLon,
    bottomRightLat := set.bottomRightLat, bottomRightLon := set.bottomRightLon,
    minZoom := set.minZoom, maxZoom := set.maxZoom,
    type := uf.getQtMapIdFromProviderType set.type,
    numTiles := set.totalTileCount,
    defaultSet := if set.defaultSet then 1 else 0, date := now }

/-- Statement `INSERT INTO TileSets(name, typeStr, ..., numTiles, defaultSet, date)` of
`_exportSets` for the descriptor `set`: fails when the name is taken in the
exported file, else appends the row under a fresh `setID`, which it returns. -/
def insertExportedSet (uf : UrlFactory) (now : Nat) (e : DB) (set : QGCCachedTileSet) :
    Option (Nat × DB) :=
  if e.TileSets.any (fun r => r.name = set.name) then none
  else
    some (nextRowId (e.TileSets.map (·.setID)), { e with TileSets := e.TileSets ++
      [exportedRow uf now (nextRowId (e.TileSets.map (·.setID))) set] })

/-- Body of the loop of `_exportSets` over the membership rows of a set: the
tile of the row is looked up in our `Tiles` and inserted into the exported
`Tiles`; when there is no such tile, or when the insert fails, the loop goes
on to the next row (`continue`); else the new tile is linked to the exported
set. -/
def exportTile (now : Nat) (src : DB) (exportSetID : Nat) (e : DB) (m : SetTileRow) : DB :=
  match src.Tiles.find? (fun r => r.tileID = m.tileID) with
  | none => e
  | some t =>
    match insertTile e t.hash t.format t.tile (.int t.type.toInt) now with
    | none => e
    | some r => insertSetTile r.2 r.1 exportSetID

/-- The loop of `_exportSets` over the sets to save, on the exported file `e`
and the error string of the task: each set gets a row in the exported
`TileSets` (the loop ends with an error when that insert fails), then each of
its membership rows goes through `exportTile`. -/
def exportLoop (uf : UrlFactory) (now : Nat) (src : DB) :
    List QGCCachedTileSet → DB → DB × Option String
  | [], e => (e, none)
  | set :: rest, e =>
    match insertExportedSet uf now e set with
    | none => (e, some "Error adding tile set to exported database")
    | some r =>
      exportLoop uf now src rest
        ((src.SetTiles.filter fun m => m.setID = set.id).foldl (exportTile now src r.1) r.2)

/-- Model of `QGCCacheWorker::_exportSets` for the descriptors `sets` of the task: the
exported file (none when the task is refused) and the error left on the
task.  The file starts as the schema that `_createDB` makes without a default
set.  The progress reports are not modelled. -/
def Worker._exportSets (uf : UrlFactory) (now : Nat) (w : Worker)
    (sets : List QGCCachedTileSet) : Option DB × Option String :=
  match w._testTask with
  | .error e => (none, some e)
  | .ok () =>
    (some (exportLoop uf now w._db sets (_createDB now {} false).2.toDB).1,
      (exportLoop uf now w._db sets (_createDB now {} false).2.toDB).2)

/-! ### Renaming a set and sequences of operations -/

/-- The new name stands for itself in the text
`UPDATE TileSets SET name = "%1" WHERE setID = %2` that `_renameTileSet`
builds with `.arg(newName).arg(setID)`: it reads as text between the double
quotes, and it holds no `%`, so that the id, which is substituted after the
name, goes to the place marker `%2` of the statement and not into the name. -/
def plainName (newName : String) : Prop :=
  readsAsText tileSetsColumns newName ∧ ∀ c ∈ newName.toList, c.toNat ≠ 37

instance (newName : String) : Decidable (plainName newName) := by
  unfold plainName
  infer_instance

/-- Model of `QGCCacheWorker::_renameTileSet`: the statement
`UPDATE TileSets SET name = "%1" WHERE setID = %2` with the new name and the
id spliced into its text.  With a plain name the statement gives the name to
the set; it fails, and changes nothing, when it would give the set a name
that another set carries (`name` is `UNIQUE`).  With any other name the
outcome is the engine's: the new content of `TileSets`, or a failure.  On a
failure the task gets the error "Error renaming tile set". -/
def Worker._renameTileSet (w : Worker) (setID : Nat) (newName : String) :
    Worker × Except String Unit :=
  match w._testTask with
  | .error e => (w, .error e)
  | .ok () =>
    if plainName newName then
      if (w._db.TileSets.any fun r => r.setID = setID) ∧
          (w._db.TileSets.any fun r => r.setID ≠ setID ∧ r.name = newName) then
        (w, .error "Error renaming tile set")
      else
        ({ w with _db := { w._db with TileSets := w._db.TileSets.map fun r =>
            if r.setID = setID then { r with name := newName } else r } }, .ok ())
    else
      match w._sqlite.renameSet w._db newName setID with
      | none => (w, .error "Error renaming tile set")
      | some rows => ({ w with _db := { w._db with TileSets := rows } }, .ok ())

/-- The operations of the worker that write to the database, with their
inputs: start of the worker on its database file (`_init`), SaveTile,
CreateTileSet, RenameTileSet, DeleteTileSet, Prune, Reset and merge Import. -/
inductive WorkerOp where
  | init (now : Nat)
  | saveTile (now : Nat) (tile : QGCCacheTile)
  | createTileSet (now : Nat) (set : QGCCachedTileSet)
  | renameTileSet (setID : Nat) (newName : String)
  | deleteTileSet (setID : Nat)
  | pruneCache (amount : Nat)
  | reset (now : Nat)
  | importMerge (now : Nat) (file : Option Schema)

/-- The worker after one operation. -/
def Worker.run (uf : UrlFactory) (latin1 : String → String) (w : Worker) : WorkerOp → Worker
  | .init now => w._init now (Schema.ofDB w._db)
  | .saveTile now tile => w._saveTile now tile
  | .createTileSet now set => (w._createTileSet uf now set).1
  | .renameTileSet setID newName => (w._renameTileSet setID newName).1
  | .deleteTileSet setID => (w._deleteTileSetTask setID).1
  | .pruneCache amount => (w._pruneCache amount).1
  | .reset now => (w._resetCacheDatabase now).1
  | .importMerge now file => (w._importSets latin1 now file false).1

/-- The operation does not rename or delete a set with `defaultSet = 1`, and
a rename gives a plain name. -/
def WorkerOp.sparesDefault (w : Worker) : WorkerOp → Prop
  | .renameTileSet setID newName =>
    (∀ r ∈ w._db.TileSets, r.setID = setID → r.defaultSet ≠ 1) ∧ plainName newName
  | .deleteTileSet setID => ∀ r ∈ w._db.TileSets, r.setID = setID → r.defaultSet ≠ 1
  | _ => True

instance (w : Worker) (op : WorkerOp) : Decidable (op.sparesDefault w) := by
  cases op <;> unfold WorkerOp.sparesDefault <;> infer_instance

/-- The worker right after its first start on an empty database file, at
time `now`. -/
def createdWorker (now : Nat) : Worker :=
  ({} : Worker)._init now {}

/-- The states that the worker reaches from a freshly created schema, on any
engine, by operations that spare the default set. -/
inductive Reachable (uf : UrlFactory) (latin1 : String → String) : Worker → Prop where
  | created (now : Nat) (sqlite : SqlEngine) :
      Reachable uf latin1 (({ _sqlite := sqlite } : Worker)._init now {})
  | step (w : Worker) (op : WorkerOp) : Reachable uf latin1 w → op.sparesDefault w →
      Reachable uf latin1 (w.run uf latin1 op)

/-- The names of the rows of `TileSets` with `defaultSet = 1`. -/
def defaultNames (rows : List TileSetRow) : List String :=
  (rows.filter fun r => r.defaultSet = 1).map (·.name)

/-- The kinds of task `QGCMapTask::TaskType`, as the dispatch of `_runTask`
lists them. -/
inductive TaskType where
  | taskInit
  | taskCacheTile
  | taskFetchTile
  | taskFetchTileSets
  | taskCreateTileSet
  | taskGetTileDownloadList
  | taskUpdateTileDownloadState
  | taskDeleteTileSet
  | taskRenameTileSet
  | taskPruneCache
  | taskReset
  | taskExport
  | taskImport
  deriving DecidableEq, Repr

/-- A task object `QGCMapTask`: `id` stands for the identity of the object on
the heap, `error` for the string given to `setError`. -/
structure QGCMapTask where
  id : Nat
  type : TaskType
  error : Option String := none
  deriving DecidableEq, Repr

/-- The worker with its queue: `_taskQueue` is the `QQueue<QGCMapTask*>`,
`_destroyed` collects the task objects that have been deleted while the
worker still held them, `_running` is `isRunning()`. -/
structure QGCCacheWorker extends Worker where
  _taskQueue : List QGCMapTask := []
  _destroyed : List QGCMapTask := []
  _running : Bool := false

/-- Model of `QGCCacheWorker::stop`: `qDeleteAll(_taskQueue)` deletes every object the
queue points to; it does not take the pointers out of the container, and
`stop` has no other statement on the queue. -/
def QGCCacheWorker.stop (q : QGCCacheWorker) : QGCCacheWorker :=
  { q with _destroyed := q._destroyed ++ q._taskQueue }

/-- Model of `QGCCacheWorker::enqueueTask`: the returned flag, the task as the caller
sees it afterwards, and the worker.  On acceptance the thread is woken or
started, so it runs. -/
def QGCCacheWorker.enqueueTask (q : QGCCacheWorker) (task : QGCMapTask) :
    Bool × QGCMapTask × QGCCacheWorker :=
  if !q._valid && task.type ≠ TaskType.taskInit then
    (false, { task with error := some "Database Not Initialized" }, q)
  else
    (true, task, { q with _taskQueue := q._taskQueue ++ [task], _running := true })

/-- The dequeue step of the loop of `QGCCacheWorker::run`,
`if (!_taskQueue.isEmpty()) task = _taskQueue.dequeue()`: the task taken from
the head, if there is one, and the worker with the rest of the queue. -/
def QGCCacheWorker.dequeue (q : QGCCacheWorker) : Option (QGCMapTask × QGCCacheWorker) :=
  match q._taskQueue with
  | [] => none
  | task :: rest => some (task, { q with _taskQueue := rest })

/-- What a round of the loop of `QGCCacheWorker::run` leaves behind: the worker,
the member `_updateTimeout`, and whether the round called `_updateTotals`. -/
structure RunRound where
  q : QGCCacheWorker
  _updateTimeout : Int
  updatedTotals : Bool

/-- One round of the loop of `QGCCacheWorker::run`, from the worker `q` and the current
value of `_updateTimeout`; nothing when the queue is empty (the loop then
waits).  The constants `kShortTimeout` and `kLongTimeout` belong to the class
declaration, `runTask` stands for the dispatch `_runTask` on the task taken
from the queue, `arrived` for the tasks that other threads enqueue while the
queue is unlocked for the task, and `hasExpired` for the answer of
`_updateTimer.hasExpired` to a timeout at the end of the round. -/
def QGCCacheWorker.runRound (kShortTimeout kLongTimeout : Int)
    (runTask : QGCMapTask → Worker → Worker) (arrived : List QGCMapTask)
    (hasExpired : Int → Bool) (q : QGCCacheWorker) (_updateTimeout : Int) : Option RunRound :=
  match q.dequeue with
  | none => none
  | some (task, q1) =>
    let q2 : QGCCacheWorker :=
      { q1 with toWorker := runTask task q1.toWorker, _taskQueue := q1._taskQueue ++ arrived }
    let count := q2._taskQueue.length
    let timeout :=
      if count > 100 then kLongTimeout
      else if count < 25 then kShortTimeout
      else _updateTimeout
    if count = 0 ∨ hasExpired timeout = true then
      if q2._valid then
        some { q := { q2 with toWorker := q2.toWorker._updateTotals }, _updateTimeout := timeout,
               updatedTotals := true }
      else some { q := q2, _updateTimeout := timeout, updatedTotals := false }
    else some { q := q2, _updateTimeout := timeout, updatedTotals := false }

/-! ## Line simplification (`RDP.cc`) -/

/-- Values of a C++ `double` as far as `RDP::simplify` looks at them: it compares
distances and does no arithmetic on them. -/
inductive Double where
  | nan
  | negInf
  | fin (q : Rat)
  | posInf
  deriving DecidableEq, Repr

/-- Comparison `a > b` of two doubles; false as soon as one of them is NaN. -/
def Double.gt : Double → Double → Bool
  | .nan, _ => false
  | _, .nan => false
  | _, .posInf => false
  | .posInf, _ => true
  | .negInf, _ => false
  | .fin _, .negInf => true
  | .fin a, .fin b => decide (b < a)

/-- Comparison `a >= b` of two doubles; false as soon as one of them is NaN. -/
def Double.ge : Double → Double → Bool
  | .nan, _ => false
  | _, .nan => false
  | .posInf, _ => true
  | _, .negInf => true
  | _, .posInf => false
  | .negInf, _ => false
  | .fin a, .fin b => decide (b ≤ a)

/-- The loop `for (int i = 1; i < points.size() - 1; ++i)` of `RDP::simplify`, from
`maxDistance = 0.0` and `index = 0`: the pair `(maxDistance, index)` after
it.  `dist` stands for `perpendicularDistance`, whose result the loop only
compares; the loop never reads outside the list. -/
def farthest {α : Type} (dist : α → α → α → Double) (points : List α) (first last : α) :
    Double × Nat :=
  (List.range' 1 (points.length - 2)).foldl
    (fun acc i =>
      match points[i]? with
      | some p => if (dist p first last).gt acc.1 then (dist p first last, i) else acc
      | none => acc)
    (.fin 0, 0)

/-- Model of `RDP::simplify` with a bound `fuel` on the depth of the recursion
(nothing when the bound is reached).  `points.mid(0, index + 1)` is the list
of the first `index + 1` points, `points.mid(index)` the list from `index`
on. -/
def simplify {α : Type} (dist : α → α → α → Double) (epsilon : Double) :
    Nat → List α → Option (List α)
  | 0, _ => none
  | fuel + 1, points =>
    if points.length < 3 then some points
    else
      match points.head?, points.getLast? with
      | some first, some last =>
        if (farthest dist points first last).1.gt epsilon then
          match simplify dist epsilon fuel (points.take ((farthest dist points first last).2 + 1)),
              simplify dist epsilon fuel (points.drop (farthest dist points first last).2) with
          | some recResults1, some recResults2 => some (recResults1.dropLast ++ recResults2)
          | _, _ => none
        else some [first, last]
      | _, _ => none

/-! ## Sample states -/

/-- A freshly created cache: the four tables, the default set under id 1. -/
def freshWorker : Worker :=
  { _db := { TileSets := [{ setID := 1, name := "Default Tile Set", defaultSet := 1 }] },
    _valid := true }

/-- The tile of the first scenario: hash "A", ten bytes `0xFF`. -/
def tileA : QGCCacheTile :=
  { hash := "A", img := List.replicate 10 0xFF, format := "png", type := "osm" }

/-- The tile of the first scenario saved again with other bytes: hash "A",
ten bytes `0x00`. -/
def tileA0 : QGCCacheTile :=
  { hash := "A", img := List.replicate 10 0x00, format := "png", type := "osm" }

/-- The cache of the first scenario after `SaveTile(tileA)`. -/
def workerA : Worker := freshWorker._saveTile 1700000000 tileA

/-- The third scenario: sets S1 (id 2) and S2 (id 3) beside the default set;
tile H1 is in S1 only, H2 in both, H3 in S2 only; each set still waits for
one download. -/
def scenario3 : Worker :=
  { _valid := true
    _db :=
      { TileSets :=
          [{ setID := 1, name := "Default Tile Set", defaultSet := 1 },
           { setID := 2, name := "S1", numTiles := 3 },
           { setID := 3, name := "S2", numTiles := 3 }]
        Tiles :=
          [{ tileID := 1, hash := "H1", format := "png", tile := [1], size := 1,
             type := .text "osm", date := 10 },
           { tileID := 2, hash := "H2", format := "png", tile := [2, 2], size := 2,
             type := .text "osm", date := 11 },
           { tileID := 3, hash := "H3", format := "png", tile := [3, 3, 3], size := 3,
             type := .text "osm", date := 12 }]
        SetTiles :=
          [{ setID := 2, tileID := 1 }, { setID := 2, tileID := 2 },
           { setID := 3, tileID := 2 }, { setID := 3, tileID := 3 }]
        TilesDownload :=
          [{ setID := 2, hash := "H4", type := 1, x := 0, y := 0, z := 3 },
           { setID := 3, hash := "H5", type := 1, x := 1, y := 0, z := 3 }] } }

/-- A sample `UrlFactory`: at every zoom the bounding box covers the tiles
`0 ≤ x ≤ 1`, `0 ≤ y ≤ 1`; the hash of a tile spells out its type and
coordinates. -/
def sampleUrl : UrlFactory :=
  { getTileCount := fun _ _ _ _ _ _ => { tileX0 := 0, tileX1 := 1, tileY0 := 0, tileY1 := 1 }
    getTileHash := fun type x y z =>
      type ++ "/" ++ toString z ++ "/" ++ toString x ++ "/" ++ toString y
    getQtMapIdFromProviderType := fun _ => 1
    getProviderTypeFromQtMapId := fun _ => "osm"
    averageSizeForType := fun _ => 13652 }

/-- A set to create: zoom 3 only, so its plan under `sampleUrl` has 4 tiles. -/
def planSet (name : String) : QGCCachedTileSet :=
  { name := name, mapTypeStr := "OpenStreetMap", type := "osm", minZoom := 3, maxZoom := 3,
    totalTileCount := 4 }

/-- A cache in which set "S1" has been created from `planSet` and none of its
four tiles has been downloaded yet: all four are pending in `TilesDownload`. -/
def pendingWorker : Worker := (freshWorker._createTileSet sampleUrl 1700000000 (planSet "S1")).1

/-- A tile of exactly 1 MB saved at second `i` of the sample clock. -/
def megaTile (i : Nat) : TileRow :=
  { tileID := i, hash := "T" ++ toString i, format := "png",
    tile := List.replicate 1048576 0xFF, size := 1048576, type := .text "osm",
    date := 1700000000 + i }

/-- The fifth scenario: the default set (id 1) holds ten tiles of 1 MB each,
saved one after the other, each with the default set as its only membership. -/
def pruneWorker : Worker :=
  { _valid := true
    _db :=
      { TileSets := [{ setID := 1, name := "Default Tile Set", defaultSet := 1 }]
        Tiles := (List.range 10).map fun i => megaTile (i + 1)
        SetTiles := (List.range 10).map fun i => { setID := 1, tileID := i + 1 } } }

/-- A running worker on a fresh cache with two tasks waiting in its queue. -/
def queuedWorker : QGCCacheWorker :=
  { freshWorker with
    _running := true
    _taskQueue := [{ id := 1, type := .taskFetchTile }, { id := 2, type := .taskPruneCache }] }

/-- A cache in which the sets "A" (id 2, planned for 1 tile) and "B" (id 3,
planned for 2 tiles) both hold the two tiles T1 and T2: "A" has more tiles
saved than planned and no tile of its own. -/
def sharedWorker : Worker :=
  { _valid := true
    _db :=
      { TileSets :=
          [{ setID := 1, name := "Default Tile Set", defaultSet := 1 },
           { setID := 2, name := "A", typeStr := some "OpenStreetMap", type := 1, numTiles := 1 },
           { setID := 3, name := "B", typeStr := some "OpenStreetMap", type := 1, numTiles := 2 }]
        Tiles :=
          [{ tileID := 1, hash := "T1", format := "png", tile := [1, 1], size := 2,
             type := .text "osm", date := 20 },
           { tileID := 2, hash := "T2", format := "png", tile := [2, 2, 2], size := 3,
             type := .text "osm", date := 21 }]
        SetTiles :=
          [{ setID := 2, tileID := 1 }, { setID := 2, tileID := 2 },
           { setID := 3, tileID := 1 }, { setID := 3, tileID := 2 }] } }

/-- A second tile to save: hash "B", three bytes. -/
def tileB : QGCCacheTile :=
  { hash := "B", img := [1, 2, 3], format := "png", type := "osm" }

/-- A cache database file whose set "Alpha" has id 1 and whose default set
has id 2; it holds no tile. -/
def swappedFile : Schema :=
  { Tiles := some []
    TileSets := some
      [{ setID := 1, name := "Alpha", typeStr := some "OpenStreetMap", type := 1 },
       { setID := 2, name := "Default Tile Set", defaultSet := 1 }]
    SetTiles := some []
    TilesDownload := some [] }

/-- The worker that has saved `tileA` on a fresh cache (and thereby read the
default set id 1) and then replaced its database by `swappedFile`. -/
def staleWorker : Worker :=
  (workerA._importSets id 1700000100 (some swappedFile) true).1

/-- A target cache in which the names "Alpha" and "Alpha 01" to "Alpha 99" are
all in use. -/
def crowdedWorker : Worker :=
  { _valid := true
    _db :=
      { TileSets :=
          [{ setID := 1, name := "Default Tile Set", defaultSet := 1 },
           { setID := 2, name := "Alpha" }] ++
          (List.range 99).map fun i => { setID := i + 3, name := testName id "Alpha" (i + 1) } } }

/-- An import file with the default set and a set "Alpha" that holds one
tile of its own. -/
def alphaFile : Schema :=
  { Tiles := some [{ tileID := 1, hash := "HA", format := "png", tile := [7, 7], size := 2,
                     type := .int 1, date := 1600000000 }]
    TileSets := some
      [{ setID := 1, name := "Default Tile Set", defaultSet := 1 },
       { setID := 2, name := "Alpha", typeStr := some "OpenStreetMap", type := 1, numTiles := 1 }]
    SetTiles := some [{ setID := 2, tileID := 1 }]
    TilesDownload := some [] }

/-- A target cache that already holds a set "Alpha". -/
def alphaWorker : Worker :=
  { _valid := true
    _db :=
      { TileSets :=
          [{ setID := 1, name := "Default Tile Set", defaultSet := 1 },
           { setID := 2, name := "Alpha", typeStr := some "OpenStreetMap", type := 1,
             numTiles := 5 }] } }

/-- A cache whose download queue holds two pending tiles of the set 2, the
first under the hash "hash", and one pending tile of the set 3. -/
def columnHashWorker : Worker :=
  { _valid := true
    _db :=
      { TileSets :=
          [{ setID := 1, name := "Default Tile Set", defaultSet := 1 },
           { setID := 2, name := "S1", numTiles := 2 }, { setID := 3, name := "S2", numTiles := 1 }]
        TilesDownload :=
          [{ setID := 2, hash := "hash", type := 1, x := 0, y := 0, z := 3 },
           { setID := 2, hash := "H2", type := 1, x := 0, y := 1, z := 3 },
           { setID := 3, hash := "H3", type := 1, x := 1, y := 0, z := 3 }] } }

theorem getDefaultTileSet_db (w : Worker) : (w._getDefaultTileSet).2._db = w._db := by
  unfold Worker._getDefaultTileSet
  split
  · rfl
  · split <;> rfl

theorem getDefaultTileSet_sqlite (w : Worker) :
    (w._getDefaultTileSet).2._sqlite = w._sqlite := by
  unfold Worker._getDefaultTileSet
  split
  · rfl
  · split <;> rfl

theorem getDefaultTileSet_valid (w : Worker) : (w._getDefaultTileSet).2._valid = w._valid := by
  unfold Worker._getDefaultTileSet
  split
  · rfl
  · split <;> rfl

/-! ### Saving and fetching a tile -/

theorem insertTile_absent (db : DB) (hash format : String) (img : Bytes) (type : SqlValue)
    (now : Nat) (habsent : ∀ r ∈ db.Tiles, r.hash ≠ hash) :
    insertTile db hash format img type now =
      some (nextRowId (db.Tiles.map (·.tileID)), { db with Tiles := db.Tiles ++
        [{ tileID := nextRowId (db.Tiles.map (·.tileID)), hash := hash, format := format,
           tile := img, size := img.length, type := type, date := now }] }) := by
  unfold insertTile
  have h : db.Tiles.any (fun r => r.hash = hash) = false := by
    simp only [List.any_eq_false, decide_eq_true_eq]
    exact habsent
  simp [h]

theorem insertTile_present (db : DB) (hash format : String) (img : Bytes) (type : SqlValue)
    (now : Nat) (hpresent : ∃ r ∈ db.Tiles, r.hash = hash) :
    insertTile db hash format img type now = none := by
  unfold insertTile
  have h : db.Tiles.any (fun r => r.hash = hash) = true := by
    simp only [List.any_eq_true, decide_eq_true_eq]
    exact hpresent
  simp [h]

/-- Round trip of SaveTile and FetchTile for a hash that the query of
FetchTile gives back as text: on a valid worker whose `Tiles` does not hold
the hash of the tile, when the hash is one that SQLite reads as text between
double quotes (not empty, no double quote, no NUL, not the name of a column
of `Tiles` or of the row key), saving the tile and then fetching its hash
succeeds and returns a tile with that hash and exactly the saved bytes. -/
theorem saveTile_getTile_roundtrip (now : Nat) (w : Worker) (tile : QGCCacheTile)
    (hvalid : w._valid = true) (habsent : ∀ r ∈ w._db.Tiles, r.hash ≠ tile.hash)
    (hread : readsAsText tilesColumns tile.hash) :
    ∃ t, (w._saveTile now tile)._getTile tile.hash = .ok t ∧
      t.hash = tile.hash ∧ t.img = tile.img := by
  have hfind : w._db.Tiles.find? (fun r => decide (r.hash = tile.hash)) = none := by
    simp only [List.find?_eq_none, decide_eq_true_eq]
    exact habsent
  refine ⟨{ hash := tile.hash, img := tile.img, format := tile.format, type := tile.type }, ?_, rfl, rfl⟩
  unfold Worker._saveTile
  rw [insertTile_absent _ _ _ _ _ _ habsent]
  simp only [hvalid, Bool.not_true, Bool.false_eq_true, if_false]
  by_cases hs : tile.tileSet = UINT64_MAX
  · simp [hs, Worker._getTile, Worker.selectByHash, hread, Worker._testTask, insertSetTile,
      getDefaultTileSet_db, getDefaultTileSet_valid, hvalid, List.find?_append, hfind,
      SqlValue.toQString]
  · simp [hs, Worker._getTile, Worker.selectByHash, hread, Worker._testTask, insertSetTile,
      hvalid, List.find?_append, hfind, SqlValue.toQString]

/-- The round trip in the first scenario of the spec, on a fresh cache. -/
theorem saveTile_getTile_roundtrip_witness :
    (freshWorker._valid = true ∧ (∀ r ∈ freshWorker._db.Tiles, r.hash ≠ tileA.hash) ∧
      readsAsText tilesColumns tileA.hash) ∧
    ∃ t, (freshWorker._saveTile 1700000000 tileA)._getTile tileA.hash = .ok t ∧
      t.hash = tileA.hash ∧ t.img = tileA.img :=
  ⟨⟨rfl, by simp [freshWorker], by decide⟩,
   saveTile_getTile_roundtrip 1700000000 freshWorker tileA rfl (by simp [freshWorker])
     (by decide)⟩

/-- C1, evaluation of the code: a fresh cache saves a tile under the hash
"tile".  The row is stored, the `INSERT` of `_saveTile` binding its values,
but `_getTile` splices the hash into the text of its query, which reads
`hash = "tile"` as a comparison of the two columns `hash` and `tile`, finds no
row, and the fetch ends with the error "Tile not in cache database". -/
theorem getTile_misses_tile_saved_under_column_name :
    freshWorker._valid = true ∧
    (∀ r ∈ freshWorker._db.Tiles, r.hash ≠ "tile") ∧
    ((freshWorker._saveTile 1700000000 { tileA with hash := "tile" })._db.Tiles.map
      fun r => (r.hash, r.tile)) = [("tile", tileA.img)] ∧
    ((freshWorker._saveTile 1700000000 { tileA with hash := "tile" })._getTile "tile").toOption =
      none := by
  refine ⟨rfl, by decide, by decide, by decide⟩

/-- C2. A second SaveTile is a no-op: when the hash of the tile is already in
`Tiles`, `_saveTile` leaves the worker, and with it every table, as it was. -/
theorem saveTile_present_noop (now : Nat) (w : Worker) (tile : QGCCacheTile)
    (hpresent : ∃ r ∈ w._db.Tiles, r.hash = tile.hash) :
    w._saveTile now tile = w ∧
    (w._saveTile now tile)._db.Tiles = w._db.Tiles ∧
    (w._saveTile now tile)._db.SetTiles = w._db.SetTiles := by
  have h : w._saveTile now tile = w := by
    unfold Worker._saveTile
    rw [insertTile_present _ _ _ _ _ _ hpresent]
    simp
  rw [h]
  exact ⟨rfl, rfl, rfl⟩

/-- Witness of C2: the second save of the first scenario, with other bytes
under the hash "A". -/
theorem saveTile_present_noop_witness :
    (∃ r ∈ workerA._db.Tiles, r.hash = tileA0.hash) ∧
    workerA._saveTile 1700000001 tileA0 = workerA ∧
    (workerA._saveTile 1700000001 tileA0)._db.Tiles = workerA._db.Tiles ∧
    (workerA._saveTile 1700000001 tileA0)._db.SetTiles = workerA._db.SetTiles :=
  ⟨by decide, saveTile_present_noop 1700000001 workerA tileA0 (by decide)⟩

/-! ### Tiles unique to a set -/

theorem selfJoin_group_length (st l : List SetTileRow) (id t : Nat) :
    ((l.flatMap fun a =>
        (st.filter fun b => a.tileID = b.tileID ∧ b.setID = id).map fun b => (a, b)).filter
      fun p => p.1.tileID = t).length
      = (l.filter fun a => a.tileID = t).length *
        (st.filter fun b => b.tileID = t ∧ b.setID = id).length := by
  induction l with
  | nil => simp
  | cons a l ih =>
    simp only [List.flatMap_cons, List.filter_append, List.length_append, ih]
    by_cases h : a.tileID = t
    · have h1 : (List.filter (fun p : SetTileRow × SetTileRow => decide (p.1.tileID = t))
          (List.map (fun b => (a, b))
            (List.filter (fun b => decide (a.tileID = b.tileID ∧ b.setID = id)) st))).length
          = (st.filter fun b => b.tileID = t ∧ b.setID = id).length := by
        rw [List.filter_map, List.length_map, List.filter_filter]
        congr 1
        apply List.filter_congr
        intro b _
        simp only [Function.comp_apply, h, decide_True, Bool.true_and]
        congr 1
        simp only [eq_comm]
      rw [h1, List.filter_cons_of_pos (by simpa using h), List.length_cons]
      ring
    · have h1 : (List.filter (fun p : SetTileRow × SetTileRow => decide (p.1.tileID = t))
          (List.map (fun b => (a, b))
            (List.filter (fun b => decide (a.tileID = b.tileID ∧ b.setID = id)) st))) = [] := by
        rw [List.filter_map]
        simp [Function.comp_def, h]
      rw [h1, List.filter_cons_of_neg (by simpa using h)]
      simp

/-- The subquery with `HAVING COUNT(A.tileID) = 1` selects exactly the tiles
whose only membership row is in the set. -/
theorem mem_uniqueTileIDs (st : List SetTileRow) (id t : Nat) :
    t ∈ uniqueTileIDs st id ↔ UniqueTo st t id := by
  have hBA : (st.filter fun b => b.tileID = t ∧ b.setID = id)
      = (st.filter fun r => r.tileID = t).filter fun b => b.setID = id := by
    rw [List.filter_filter]
    apply List.filter_congr
    intro b _
    simp [and_comm]
  unfold uniqueTileIDs UniqueTo
  simp only [List.mem_filter, List.mem_dedup, decide_eq_true_eq]
  unfold selfJoin
  rw [selfJoin_group_length]
  constructor
  · rintro ⟨_, h⟩
    have hA : (st.filter fun a => a.tileID = t).length = 1 := Nat.eq_one_of_mul_eq_one_right h
    have hB : (st.filter fun b => b.tileID = t ∧ b.setID = id).length = 1 :=
      Nat.eq_one_of_mul_eq_one_left h
    obtain ⟨m, hm⟩ := List.length_eq_one.mp hA
    have hmt : m.tileID = t := by
      have : m ∈ st.filter fun a => a.tileID = t := by rw [hm]; simp
      simpa using (List.mem_filter.mp this).2
    rw [hBA, hm] at hB
    have hms : m.setID = id := by
      by_contra hne
      simp [List.filter_cons, hne] at hB
    rw [hm]
    cases m
    simp_all
  · intro h
    have hA : (st.filter fun a => a.tileID = t).length = 1 := by rw [h]; rfl
    have hB : (st.filter fun b => b.tileID = t ∧ b.setID = id).length = 1 := by
      rw [hBA, h]; simp
    refine ⟨?_, by rw [hA, hB]⟩
    have hm : (⟨id, t⟩ : SetTileRow) ∈ st.filter fun r => r.tileID = t := by rw [h]; simp
    have hm1 := (List.mem_filter.mp hm).1
    simp only [List.mem_map, List.mem_flatMap, List.mem_filter, decide_eq_true_eq]
    exact ⟨(⟨id, t⟩, ⟨id, t⟩), ⟨⟨id, t⟩, hm1, ⟨id, t⟩, ⟨hm1, rfl, rfl⟩, rfl⟩, rfl⟩

theorem updateTotals_db (w : Worker) : w._updateTotals._db = w._db := by
  unfold Worker._updateTotals
  have h := getDefaultTileSet_db
  split <;> simp only [] <;> split <;> simp [h]

theorem updateTotals_valid (w : Worker) : w._updateTotals._valid = w._valid := by
  unfold Worker._updateTotals
  have h := getDefaultTileSet_valid
  split <;> simp only [] <;> split <;> simp [h]

/-! ### Deleting a tile set -/

theorem deleteTileSet_db (w : Worker) (id : Nat) :
    (w._deleteTileSet id)._db =
      { Tiles := w._db.Tiles.filter fun r => r.tileID ∉ uniqueTileIDs w._db.SetTiles id
        TilesDownload := w._db.TilesDownload.filter fun r => r.setID ≠ id
        TileSets := w._db.TileSets.filter fun r => r.setID ≠ id
        SetTiles := w._db.SetTiles.filter fun r => r.setID ≠ id } := by
  unfold Worker._deleteTileSet
  rw [updateTotals_db]

theorem deleteTileSet_valid (w : Worker) (id : Nat) :
    (w._deleteTileSet id)._valid = w._valid := by
  unfold Worker._deleteTileSet
  rw [updateTotals_valid]

/-- C3 (amended). DeleteTileSet(S) removes from `Tiles` exactly the tiles that
have a single membership row, that row being in S: the table afterwards is
the table before without them.  A tile with a membership row in another set
stays, and a fetch of its hash succeeds when SQLite reads the hash back as
text; no row is left under the `tileID` of a tile whose single membership row
was in S; and a tile with two or more membership rows stays, also when all of
them are in S. -/
theorem deleteTileSet_removes_unique_tiles (w : Worker) (id : Nat) (hvalid : w._valid = true) :
    (w._deleteTileSet id)._db.Tiles =
      w._db.Tiles.filter (fun r => ¬ UniqueTo w._db.SetTiles r.tileID id) ∧
    (∀ r ∈ w._db.Tiles, (∃ m ∈ w._db.SetTiles, m.tileID = r.tileID ∧ m.setID ≠ id) →
      r ∈ (w._deleteTileSet id)._db.Tiles ∧
      (readsAsText tilesColumns r.hash →
        ∃ t, (w._deleteTileSet id)._getTile r.hash = .ok t ∧ t.hash = r.hash)) ∧
    (∀ r ∈ w._db.Tiles, UniqueTo w._db.SetTiles r.tileID id →
      ∀ r' ∈ (w._deleteTileSet id)._db.Tiles, r'.tileID ≠ r.tileID) ∧
    (∀ r ∈ w._db.Tiles, 2 ≤ (w._db.SetTiles.filter fun m => m.tileID = r.tileID).length →
      r ∈ (w._deleteTileSet id)._db.Tiles) := by
  have htiles : (w._deleteTileSet id)._db.Tiles =
      w._db.Tiles.filter (fun r => ¬ UniqueTo w._db.SetTiles r.tileID id) := by
    rw [deleteTileSet_db]
    apply List.filter_congr
    intro r _
    simp only [mem_uniqueTileIDs]
  refine ⟨htiles, ?_, ?_, ?_⟩
  · rintro r hr ⟨m, hm, hmt, hms⟩
    have hnot : ¬ UniqueTo w._db.SetTiles r.tileID id := by
      intro hu
      unfold UniqueTo at hu
      have hmem : m ∈ w._db.SetTiles.filter (fun x => x.tileID = r.tileID) :=
        List.mem_filter.mpr ⟨hm, by simpa using hmt⟩
      rw [hu] at hmem
      simp only [List.mem_singleton] at hmem
      exact hms (by rw [hmem])
    have hin : r ∈ (w._deleteTileSet id)._db.Tiles := by
      rw [htiles]
      exact List.mem_filter.mpr ⟨hr, by simpa using hnot⟩
    refine ⟨hin, ?_⟩
    intro hread
    unfold Worker._getTile Worker._testTask Worker.selectByHash
    rw [deleteTileSet_valid, hvalid, if_pos hread]
    simp only [Bool.not_true, Bool.false_eq_true, if_false]
    cases hf : (w._deleteTileSet id)._db.Tiles.find? (fun x => decide (x.hash = r.hash)) with
    | some x => exact ⟨_, rfl, rfl⟩
    | none =>
      have := List.find?_eq_none.mp hf r hin
      simp at this
  · intro r _ hu r' hr' heq
    rw [htiles] at hr'
    have := (List.mem_filter.mp hr').2
    rw [heq] at this
    simp [hu] at this
  · intro r hr hlen
    rw [htiles]
    refine List.mem_filter.mpr ⟨hr, ?_⟩
    have hnot : ¬ UniqueTo w._db.SetTiles r.tileID id := by
      intro hu
      unfold UniqueTo at hu
      rw [hu] at hlen
      simp at hlen
    simpa using hnot

/-- Witness of C3: the third scenario.  Deleting S1 (id 2) removes H1 and
keeps H2 and H3, and H2 can still be fetched. -/
theorem deleteTileSet_removes_unique_tiles_witness :
    scenario3._valid = true ∧
    ((scenario3._deleteTileSet 2)._db.Tiles.map (·.hash) = ["H2", "H3"]) ∧
    (scenario3._deleteTileSet 2)._db.Tiles =
      scenario3._db.Tiles.filter (fun r => ¬ UniqueTo scenario3._db.SetTiles r.tileID 2) :=
  ⟨rfl, by decide, (deleteTileSet_removes_unique_tiles scenario3 2 rfl).1⟩

/-- Counterexample to C3 as stated: a cache saves the tile "A" into its
default set, is pruned, and saves the tile "B", which receives the `tileID` 1
again and so has two membership rows, both in the default set (id 1).  The
tile is a member of set 1 only, yet DeleteTileSet(1) keeps it in `Tiles`:
the subquery selects the tiles with `COUNT = 1`.  Besides, a tile saved under
the hash "tile" into the default set stays in `Tiles` when the set 2 is
deleted, but the query of FetchTile, with the hash spliced into its text,
does not find it. -/
theorem deleteTileSet_removes_unique_tiles_counterexample :
    (((freshWorker._saveTile 1700000000 { tileA with hash := "tile" })._deleteTileSet
        2)._db.Tiles.map fun r => (r.tileID, r.hash)) = [(1, "tile")] ∧
    (((freshWorker._saveTile 1700000000 { tileA with hash := "tile" })._deleteTileSet
        2)._getTile "tile").toOption = none ∧
    (((workerA._pruneCache 1).1._saveTile 1700000900 tileB)._db.Tiles.map
      fun r => (r.tileID, r.hash)) = [(1, "B")] ∧
    ((workerA._pruneCache 1).1._saveTile 1700000900 tileB)._db.SetTiles =
      [{ setID := 1, tileID := 1 }, { setID := 1, tileID := 1 }] ∧
    (((workerA._pruneCache 1).1._saveTile 1700000900 tileB)._deleteTileSet 1)._db.SetTiles = [] ∧
    ((((workerA._pruneCache 1).1._saveTile 1700000900 tileB)._deleteTileSet 1)._db.Tiles.map
      fun r => (r.tileID, r.hash)) = [(1, "B")] := by
  refine ⟨by decide, by decide, by decide, by decide, by decide, by decide⟩

/-- C4. After DeleteTileSet(S) no row of `TileSets`, `SetTiles` or
`TilesDownload` carries the id S, and these three tables hold exactly their
former rows of the other sets, unchanged and in their former order.  The task
entry point does the same on a valid worker. -/
theorem deleteTileSet_frame (w : Worker) (id : Nat) :
    (∀ r ∈ (w._deleteTileSet id)._db.TileSets, r.setID ≠ id) ∧
    (∀ r ∈ (w._deleteTileSet id)._db.SetTiles, r.setID ≠ id) ∧
    (∀ r ∈ (w._deleteTileSet id)._db.TilesDownload, r.setID ≠ id) ∧
    (w._deleteTileSet id)._db.TileSets = w._db.TileSets.filter (fun r => r.setID ≠ id) ∧
    (w._deleteTileSet id)._db.SetTiles = w._db.SetTiles.filter (fun r => r.setID ≠ id) ∧
    (w._deleteTileSet id)._db.TilesDownload =
      w._db.TilesDownload.filter (fun r => r.setID ≠ id) ∧
    (w._valid = true → (w._deleteTileSetTask id).1 = w._deleteTileSet id) := by
  rw [deleteTileSet_db]
  refine ⟨?_, ?_, ?_, rfl, rfl, rfl, ?_⟩
  · intro r hr
    simpa using (List.mem_filter.mp hr).2
  · intro r hr
    simpa using (List.mem_filter.mp hr).2
  · intro r hr
    simpa using (List.mem_filter.mp hr).2
  · intro hvalid
    simp [Worker._deleteTileSetTask, Worker._testTask, hvalid]

/-! ### Creating a tile set -/

theorem updateSetTotals_db (uf : UrlFactory) (w : Worker) (set : QGCCachedTileSet) :
    (w._updateSetTotals uf set).1._db = w._db := by
  unfold Worker._updateSetTotals
  split
  · exact updateTotals_db w
  · rfl

/-- Marking a list of hashes one `UPDATE` at a time changes the state of the
rows of the set whose hash is on the list, and nothing else. -/
theorem foldl_markRows (st : Int) (id : Nat) (hs : List String) :
    ∀ dl : List DownloadRow,
    hs.foldl (fun dl h => markRows dl st id h) dl =
      dl.map fun r => if r.setID = id ∧ r.hash ∈ hs then { r with state := st } else r := by
  induction hs with
  | nil => intro dl; simp
  | cons h hs ih =>
    intro dl
    rw [List.foldl_cons, ih]
    unfold markRows
    rw [List.map_map]
    apply List.map_congr_left
    intro r _
    simp only [Function.comp_apply, List.mem_cons]
    by_cases h1 : r.setID = id <;> by_cases h2 : r.hash = h <;> by_cases h3 : r.hash ∈ hs <;>
      simp [h1, h2, h3]

/-- The marking loop of `_getTileDownloadList` over the descriptors of rows whose
hashes are read as text: only `TilesDownload` is written, by `markRows`. -/
theorem foldl_setDownloadState_text (uf : UrlFactory) (sqlite : SqlEngine) (st : Int) (id : Nat) :
    ∀ (l : List DownloadRow) (db : DB),
    (∀ r ∈ l, readsAsText downloadColumns r.hash) →
    (l.map (tileOfRow uf)).foldl (fun db t => setDownloadState db sqlite st id t.hash) db =
      { db with TilesDownload :=
          (l.map (·.hash)).foldl (fun dl h => markRows dl st id h) db.TilesDownload } := by
  intro l
  induction l with
  | nil => intro db _; rfl
  | cons r l ih =>
    intro db hread
    rw [List.map_cons, List.foldl_cons, ih _ (fun x hx => hread x (List.mem_cons_of_mem _ hx))]
    have hr : readsAsText downloadColumns (tileOfRow uf r).hash := hread r (List.mem_cons_self _ _)
    simp only [setDownloadState, if_pos hr, List.map_cons, List.foldl_cons]
    rfl

theorem mem_of_hash_eq (dl : List DownloadRow) (hunique : (dl.map (·.hash)).Nodup)
    (r c : DownloadRow) (hr : r ∈ dl) (hc : c ∈ dl) (h : r.hash = c.hash) : r = c :=
  List.inj_on_of_nodup_map hunique hr hc h

theorem filter_not_mem_take {α : Type} [DecidableEq α] (l : List α) (hl : l.Nodup) (n : Nat) :
    l.filter (fun r => r ∉ l.take n) = l.drop n := by
  have hd : List.Disjoint (l.take n) (l.drop n) := List.disjoint_take_drop hl (le_refl n)
  conv_lhs => rw [← List.take_append_drop n l]
  rw [List.filter_append]
  have h1 : (l.take n).filter (fun r => r ∉ (l.take n ++ l.drop n).take n) = [] := by
    rw [List.take_append_drop]
    simp only [List.filter_eq_nil_iff, decide_eq_true_eq]
    intro a ha hna
    exact hna ha
  have h2 : (l.drop n).filter (fun r => r ∉ (l.take n ++ l.drop n).take n) = l.drop n := by
    rw [List.take_append_drop]
    simp only [List.filter_eq_self, decide_eq_true_eq]
    intro a ha hna
    exact hd hna ha
  rw [h1, h2, List.nil_append]

theorem pending_after_mark (dl C : List DownloadRow) (id : Nat) :
    ((dl.map fun r =>
        if r ∈ C then { r with state := TileState.StateDownloading.toInt } else r).filter
      (fun r => r.setID = id ∧ r.state = 0)).length =
    ((dl.filter (fun r => r.setID = id ∧ r.state = 0)).filter (fun r => r ∉ C)).length := by
  rw [List.filter_map, List.length_map, List.filter_filter]
  congr 1
  apply List.filter_congr
  intro r _
  by_cases hc : r ∈ C
  · simp [hc, TileState.toInt]
  · simp [hc]

/-- GetDownloadList(S, N) with N ≥ 0 on a valid worker whose `TilesDownload`
respects `hash UNIQUE`, when SQLite reads the hashes of the first min(N, P)
pending rows of S as text in the marking `UPDATE`: it returns one descriptor
for each of these rows, in order, with the hash of the row, its x, y and z
read with `toInt` and the provider type of its type; afterwards exactly
those rows have been moved to Downloading and every other row of the table
is as it was, S has P − min(N, P) pending rows left, and the rows of other
sets and the other tables are unchanged. -/
theorem getTileDownloadList_spec (uf : UrlFactory) (w : Worker) (setID : Nat) (count : Int)
    (hvalid : w._valid = true) (hcount : 0 ≤ count)
    (hunique : (w._db.TilesDownload.map (·.hash)).Nodup)
    (hread : ∀ r ∈ (pendingRows w._db setID).take count.toNat,
      readsAsText downloadColumns r.hash) :
    (w._getTileDownloadList uf setID count).2 =
      .ok (((pendingRows w._db setID).take count.toNat).map fun r =>
        { hash := r.hash, type := uf.getProviderTypeFromQtMapId (toInt32 r.type),
          x := toInt32 r.x, y := toInt32 r.y, z := toInt32 r.z }) ∧
    (((pendingRows w._db setID).take count.toNat).map fun r : DownloadRow =>
        ({ hash := r.hash, type := uf.getProviderTypeFromQtMapId (toInt32 r.type),
           x := toInt32 r.x, y := toInt32 r.y, z := toInt32 r.z } : QGCTile)).length =
      min count.toNat (pendingRows w._db setID).length ∧
    (∀ r ∈ (pendingRows w._db setID).take count.toNat,
      r ∈ w._db.TilesDownload ∧ r.setID = setID ∧ r.state = TileState.StatePending.toInt) ∧
    (w._getTileDownloadList uf setID count).1._db.TilesDownload =
      w._db.TilesDownload.map (fun r =>
        if r ∈ (pendingRows w._db setID).take count.toNat then
          { r with state := TileState.StateDownloading.toInt }
        else r) ∧
    (pendingRows (w._getTileDownloadList uf setID count).1._db setID).length =
      (pendingRows w._db setID).length - min count.toNat (pendingRows w._db setID).length ∧
    (w._getTileDownloadList uf setID count).1._db.TilesDownload.filter (fun r => r.setID ≠ setID) =
      w._db.TilesDownload.filter (fun r => r.setID ≠ setID) ∧
    (w._getTileDownloadList uf setID count).1._db.Tiles = w._db.Tiles ∧
    (w._getTileDownloadList uf setID count).1._db.TileSets = w._db.TileSets ∧
    (w._getTileDownloadList uf setID count).1._db.SetTiles = w._db.SetTiles := by
  have hlim : sqlLimit count (pendingRows w._db setID) =
      (pendingRows w._db setID).take count.toNat := by
    unfold sqlLimit
    rw [if_neg (by omega)]
  have hchosen : ∀ r ∈ (pendingRows w._db setID).take count.toNat,
      r ∈ w._db.TilesDownload ∧ r.setID = setID ∧ r.state = 0 := by
    intro r hr
    have := List.mem_filter.mp (List.mem_of_mem_take hr)
    simpa using this
  have hdl : (w._getTileDownloadList uf setID count).1._db.TilesDownload =
      w._db.TilesDownload.map (fun r =>
        if r ∈ (pendingRows w._db setID).take count.toNat then
          { r with state := TileState.StateDownloading.toInt }
        else r) := by
    unfold Worker._getTileDownloadList Worker._testTask
    simp only [hvalid, Bool.not_true, Bool.false_eq_true, if_false, hlim]
    rw [foldl_setDownloadState_text uf w._sqlite _ setID _ w._db hread]
    show List.foldl _ w._db.TilesDownload _ = _
    rw [foldl_markRows]
    apply List.map_congr_left
    intro r hr
    have hiff : (r.setID = setID ∧
        r.hash ∈ ((pendingRows w._db setID).take count.toNat).map (·.hash)) ↔
        r ∈ (pendingRows w._db setID).take count.toNat := by
      constructor
      · rintro ⟨_, hh⟩
        obtain ⟨c, hc, hch⟩ := List.mem_map.mp hh
        have := mem_of_hash_eq _ hunique r c hr (hchosen c hc).1 hch.symm
        rw [this]
        exact hc
      · intro hc
        exact ⟨(hchosen r hc).2.1, List.mem_map.mpr ⟨r, hc, rfl⟩⟩
    by_cases hc : r ∈ (pendingRows w._db setID).take count.toNat
    · rw [if_pos (hiff.mpr hc), if_pos hc]
    · rw [if_neg (fun h => hc (hiff.mp h)), if_neg hc]
  have hnodup : (pendingRows w._db setID).Nodup :=
    (List.Nodup.of_map _ hunique).filter _
  have hother : (w._getTileDownloadList uf setID count).1._db =
      { w._db with TilesDownload := (w._getTileDownloadList uf setID count).1._db.TilesDownload } := by
    unfold Worker._getTileDownloadList Worker._testTask
    simp only [hvalid, Bool.not_true, Bool.false_eq_true, if_false, hlim]
    rw [foldl_setDownloadState_text uf w._sqlite _ setID _ w._db hread]
  refine ⟨?_, ?_, ?_, hdl, ?_, ?_, ?_, ?_, ?_⟩
  · unfold Worker._getTileDownloadList Worker._testTask
    simp only [hvalid, Bool.not_true, Bool.false_eq_true, if_false, hlim]
    rfl
  · rw [List.length_map, List.length_take]
  · exact hchosen
  · have hpr : pendingRows (w._getTileDownloadList uf setID count).1._db setID =
        (w._getTileDownloadList uf setID count).1._db.TilesDownload.filter
          (fun r => r.setID = setID ∧ r.state = 0) := rfl
    rw [hpr, hdl, pending_after_mark]
    have hpr0 : w._db.TilesDownload.filter (fun r => r.setID = setID ∧ r.state = 0) =
        pendingRows w._db setID := rfl
    rw [hpr0, filter_not_mem_take _ hnodup, List.length_drop]
    omega
  · rw [hdl, List.filter_map]
    have hfilter : List.filter
        ((fun r : DownloadRow => decide (r.setID ≠ setID)) ∘ fun r =>
          if r ∈ List.take count.toNat (pendingRows w._db setID) then
            { r with state := TileState.StateDownloading.toInt }
          else r) w._db.TilesDownload =
        List.filter (fun r => decide (r.setID ≠ setID)) w._db.TilesDownload := by
      apply List.filter_congr
      intro r _
      simp only [Function.comp_apply]
      split <;> rfl
    rw [hfilter]
    conv_rhs => rw [← List.map_id (List.filter (fun r => decide (r.setID ≠ setID)) w._db.TilesDownload)]
    apply List.map_congr_left
    intro r hr
    have hne : r.setID ≠ setID := by simpa using (List.mem_filter.mp hr).2
    rw [if_neg (fun hc => hne (hchosen r hc).2.1)]
    rfl
  · rw [hother]
  · rw [hother]
  · rw [hother]

/-- With the four tiles of "S1" (id 2) pending, GetDownloadList(S1, 3)
returns three descriptors and leaves one row pending and three downloading. -/
theorem getTileDownloadList_spec_witness :
    (pendingRows pendingWorker._db 2).length = 4 ∧
    (pendingWorker._getTileDownloadList sampleUrl 2 3).2 =
      .ok (((pendingRows pendingWorker._db 2).take 3).map fun r =>
        { hash := r.hash, type := sampleUrl.getProviderTypeFromQtMapId (toInt32 r.type),
          x := toInt32 r.x, y := toInt32 r.y, z := toInt32 r.z }) ∧
    ((pendingWorker._getTileDownloadList sampleUrl 2 3).2.toOption.map fun tiles =>
      tiles.map fun t => (t.hash, t.x, t.y, t.z)) =
      some [("osm/3/0/0", 0, 0, 3), ("osm/3/0/1", 0, 1, 3), ("osm/3/1/0", 1, 0, 3)] ∧
    ((pendingWorker._getTileDownloadList sampleUrl 2 3).1._db.TilesDownload.map
      fun r => (r.hash, r.state)) =
      [("osm/3/0/0", 1), ("osm/3/0/1", 1), ("osm/3/1/0", 1), ("osm/3/1/1", 0)] :=
  ⟨by decide,
   (getTileDownloadList_spec sampleUrl pendingWorker 2 3 rfl (by decide) (by decide)
     (by decide)).1,
   by decide, by decide⟩

/-- C6, evaluation of the code: the set 2 has two pending rows, the first
under the hash "hash".  GetDownloadList(2, 1) returns the one descriptor of
that row, and its marking statement, with the hash spliced into the text,
reads `UPDATE ... AND hash = "hash"` and compares the column with itself:
both rows of the set are moved to Downloading and none stays pending, where
one row was returned and one should stay pending. -/
theorem getTileDownloadList_marks_rows_not_returned :
    columnHashWorker._valid = true ∧
    (pendingRows columnHashWorker._db 2).map (·.hash) = ["hash", "H2"] ∧
    ((columnHashWorker._getTileDownloadList sampleUrl 2 1).2.toOption.map fun tiles =>
      tiles.map (·.hash)) = some ["hash"] ∧
    ((columnHashWorker._getTileDownloadList sampleUrl 2 1).1._db.TilesDownload.map
      fun r => (r.setID, r.hash, r.state)) = [(2, "hash", 1), (2, "H2", 1), (3, "H3", 0)] ∧
    (pendingRows (columnHashWorker._getTileDownloadList sampleUrl 2 1).1._db 2).length = 0 := by
  refine ⟨rfl, by decide, by decide, by decide, by decide⟩

/-- UpdateDownloadState(S, h, st) on a valid worker, for a hash that SQLite
reads as text between double quotes (not empty, no double quote, no NUL, not
the name of a column of `TilesDownload` or of the row key), by cases in this
order: for st = Complete the rows of S with hash h are deleted; otherwise for
h = "*" every row of S gets state st; otherwise the rows of S with hash h get
state st.  In every case the rows of other sets are unchanged, every row
left in the table is a former row with the same set, hash, type, x, y and z,
and the other tables are unchanged. -/
theorem updateTileDownloadState_spec (w : Worker) (setID : Nat) (hash : String)
    (state : TileState) (hvalid : w._valid = true)
    (hread : readsAsText downloadColumns hash) :
    (state = TileState.StateComplete →
      (w._updateTileDownloadState setID hash state).1._db.TilesDownload =
        w._db.TilesDownload.filter (fun r => ¬(r.setID = setID ∧ r.hash = hash))) ∧
    (state ≠ TileState.StateComplete → hash = "*" →
      (w._updateTileDownloadState setID hash state).1._db.TilesDownload =
        w._db.TilesDownload.map (fun r =>
          if r.setID = setID then { r with state := state.toInt } else r)) ∧
    (state ≠ TileState.StateComplete → hash ≠ "*" →
      (w._updateTileDownloadState setID hash state).1._db.TilesDownload =
        w._db.TilesDownload.map (fun r =>
          if r.setID = setID ∧ r.hash = hash then { r with state := state.toInt } else r)) ∧
    (w._updateTileDownloadState setID hash state).1._db.TilesDownload.filter
        (fun r => r.setID ≠ setID) =
      w._db.TilesDownload.filter (fun r => r.setID ≠ setID) ∧
    (∀ r' ∈ (w._updateTileDownloadState setID hash state).1._db.TilesDownload,
      ∃ r ∈ w._db.TilesDownload, r'.setID = r.setID ∧ r'.hash = r.hash ∧ r'.type = r.type ∧
        r'.x = r.x ∧ r'.y = r.y ∧ r'.z = r.z ∧ (r' = r ∨ r'.state = state.toInt)) ∧
    (w._updateTileDownloadState setID hash state).1._db.Tiles = w._db.Tiles ∧
    (w._updateTileDownloadState setID hash state).1._db.TileSets = w._db.TileSets ∧
    (w._updateTileDownloadState setID hash state).1._db.SetTiles = w._db.SetTiles := by
  have hmapfilter : ∀ (p : DownloadRow → Prop) [DecidablePred p] (hp : ∀ r, p r → r.setID = setID),
      (w._db.TilesDownload.map (fun r =>
          if p r then { r with state := state.toInt } else r)).filter (fun r => r.setID ≠ setID) =
        w._db.TilesDownload.filter (fun r => r.setID ≠ setID) := by
    intro p _ hp
    rw [List.filter_map]
    have hfilter : List.filter
        ((fun r : DownloadRow => decide (r.setID ≠ setID)) ∘ fun r =>
          if p r then { r with state := state.toInt } else r) w._db.TilesDownload =
        List.filter (fun r => decide (r.setID ≠ setID)) w._db.TilesDownload := by
      apply List.filter_congr
      intro r _
      simp only [Function.comp_apply]
      split <;> rfl
    rw [hfilter]
    conv_rhs =>
      rw [← List.map_id (List.filter (fun r => decide (r.setID ≠ setID)) w._db.TilesDownload)]
    apply List.map_congr_left
    intro r hr
    have hne : r.setID ≠ setID := by simpa using (List.mem_filter.mp hr).2
    rw [if_neg (fun h => hne (hp r h))]
    rfl
  have hmapmem : ∀ (p : DownloadRow → Prop) [DecidablePred p],
      ∀ r' ∈ w._db.TilesDownload.map (fun r =>
          if p r then { r with state := state.toInt } else r),
      ∃ r ∈ w._db.TilesDownload, r'.setID = r.setID ∧ r'.hash = r.hash ∧ r'.type = r.type ∧
        r'.x = r.x ∧ r'.y = r.y ∧ r'.z = r.z ∧ (r' = r ∨ r'.state = state.toInt) := by
    intro p _ r' hr'
    obtain ⟨r, hr, rfl⟩ := List.mem_map.mp hr'
    refine ⟨r, hr, ?_⟩
    split
    · exact ⟨rfl, rfl, rfl, rfl, rfl, rfl, Or.inr rfl⟩
    · exact ⟨rfl, rfl, rfl, rfl, rfl, rfl, Or.inl rfl⟩
  have hdb : (w._updateTileDownloadState setID hash state).1._db =
      { w._db with TilesDownload :=
          if state = TileState.StateComplete then
            w._db.TilesDownload.filter fun r => ¬(r.setID = setID ∧ r.hash = hash)
          else if hash = "*" then
            w._db.TilesDownload.map fun r =>
              if r.setID = setID then { r with state := state.toInt } else r
          else
            w._db.TilesDownload.map fun r =>
              if r.setID = setID ∧ r.hash = hash then { r with state := state.toInt } else r } := by
    unfold Worker._updateTileDownloadState Worker._testTask
    simp only [hvalid, Bool.not_true, Bool.false_eq_true, if_false]
    by_cases hs : state = TileState.StateComplete
    · simp only [hs, if_true, deleteDownload, if_pos hread]
    · by_cases hh : hash = "*"
      · simp only [hs, hh, if_true, if_false]
      · simp only [hs, hh, if_false, setDownloadState, markRows, if_pos hread]
  rw [hdb]
  refine ⟨fun hs => by simp only [hs, if_true], fun hs hh => by simp only [hs, hh, if_true, if_false],
    fun hs hh => by simp only [hs, hh, if_false], ?_, ?_, rfl, rfl, rfl⟩
  · simp only []
    split
    · rw [List.filter_filter]
      apply List.filter_congr
      intro r _
      by_cases h1 : r.setID = setID <;> simp [h1]
    · split
      · exact hmapfilter (fun r => r.setID = setID) (fun _ h => h)
      · exact hmapfilter (fun r => r.setID = setID ∧ r.hash = hash) (fun _ h => h.1)
  · simp only []
    split
    · intro r' hr'
      have := (List.mem_filter.mp hr').1
      exact ⟨r', this, rfl, rfl, rfl, rfl, rfl, rfl, Or.inl rfl⟩
    · split
      · exact hmapmem (fun r => r.setID = setID)
      · exact hmapmem (fun r => r.setID = setID ∧ r.hash = hash)

/-- With the four tiles of "S1" (id 2) pending, completing one tile deletes
its row, and an update under "*" marks every row of S1. -/
theorem updateTileDownloadState_spec_witness :
    readsAsText downloadColumns "osm/3/0/1" ∧
    ((pendingWorker._updateTileDownloadState 2 "osm/3/0/1" TileState.StateComplete).1._db.TilesDownload
      = pendingWorker._db.TilesDownload.filter (fun r => ¬(r.setID = 2 ∧ r.hash = "osm/3/0/1"))) ∧
    ((pendingWorker._updateTileDownloadState 2 "osm/3/0/1" TileState.StateComplete).1._db.TilesDownload.map
      fun r => (r.hash, r.state)) = [("osm/3/0/0", 0), ("osm/3/1/0", 0), ("osm/3/1/1", 0)] ∧
    ((pendingWorker._updateTileDownloadState 2 "*" TileState.StateError).1._db.TilesDownload.map
      fun r => (r.hash, r.state)) =
      [("osm/3/0/0", 3), ("osm/3/0/1", 3), ("osm/3/1/0", 3), ("osm/3/1/1", 3)] :=
  ⟨by decide,
   (updateTileDownloadState_spec pendingWorker 2 "osm/3/0/1" TileState.StateComplete rfl
      (by decide)).1 rfl,
   by decide, by decide⟩

/-- C7, evaluation of the code: the set 2 has the two rows "hash" and "H2".
UpdateDownloadState(2, "hash", Complete) splices the hash into the text
`DELETE ... WHERE setID = 2 AND hash = "hash"`, which compares the column with
itself and deletes both rows of the set, not only the row with that hash; in
the same way UpdateDownloadState(2, "hash", Error) writes the state to both
rows. -/
theorem updateTileDownloadState_reaches_every_row_of_set :
    columnHashWorker._valid = true ∧
    (columnHashWorker._db.TilesDownload.map fun r => (r.setID, r.hash, r.state)) =
      [(2, "hash", 0), (2, "H2", 0), (3, "H3", 0)] ∧
    ((columnHashWorker._updateTileDownloadState 2 "hash"
        TileState.StateComplete).1._db.TilesDownload.map fun r => (r.setID, r.hash, r.state)) =
      [(3, "H3", 0)] ∧
    ((columnHashWorker._updateTileDownloadState 2 "hash"
        TileState.StateError).1._db.TilesDownload.map fun r => (r.setID, r.hash, r.state)) =
      [(2, "hash", 3), (2, "H2", 3), (3, "H3", 0)] := by
  refine ⟨rfl, by decide, by decide, by decide⟩

/-! ### Pruning -/

/-- C8, evaluation of the code on the fifth scenario: ten tiles of 1 MB and a
request of 3 MB.  The loop `while (query.next() && (amount >= 0))` takes a
fourth tile when the three oldest already add up to the request, so four
tiles are deleted, not three. -/
theorem pruneCache_three_megabytes_deletes_four :
    pruneWorker._valid = true ∧
    (pruneWorker._db.Tiles.map fun r => (r.tileID, r.size)) =
      [(1, 1048576), (2, 1048576), (3, 1048576), (4, 1048576), (5, 1048576),
       (6, 1048576), (7, 1048576), (8, 1048576), (9, 1048576), (10, 1048576)] ∧
    pruneList (pruneCandidates pruneWorker._db 1) (toInt64 (3 * 1048576)) = [1, 2, 3, 4] ∧
    ((pruneWorker._pruneCache (3 * 1048576)).1._db.Tiles.map (·.tileID)) = [5, 6, 7, 8, 9, 10] := by
  decide

theorem toInt64_of_range (i : Int) (h1 : -2 ^ 63 ≤ i) (h2 : i < 2 ^ 63) : toInt64 i = i := by
  unfold toInt64
  simp only []
  split <;> omega

theorem pruneList_neg (l : List TileRow) (a : Int) (ha : a < 0) : pruneList l a = [] := by
  cases l with
  | nil => rfl
  | cons r l =>
    unfold pruneList
    rw [if_neg (by omega)]

/-- The first loop of `_pruneCache` puts a prefix of the selected rows on the
list, and that prefix is all of them or weighs more than the request. -/
theorem pruneList_spec (l : List TileRow) : ∀ a : Int, 0 ≤ a → a < 2 ^ 63 →
    (∀ r ∈ l, r.size < 2 ^ 63) →
    ∃ k, k ≤ l.length ∧ pruneList l a = (l.take k).map (·.tileID) ∧
      (k = l.length ∨ a < (((l.take k).map (·.size)).sum : Nat)) := by
  induction l with
  | nil => intro a _ _ _; exact ⟨0, le_refl _, rfl, Or.inl rfl⟩
  | cons r l ih =>
    intro a ha0 ha hsize
    have hr : r.size < 2 ^ 63 := hsize r (List.mem_cons_self _ _)
    have hl : ∀ x ∈ l, x.size < 2 ^ 63 := fun x hx => hsize x (List.mem_cons_of_mem _ hx)
    have hto : toInt64 (a - r.size) = a - r.size := toInt64_of_range _ (by omega) (by omega)
    unfold pruneList
    rw [if_pos ha0, hto]
    by_cases hneg : a - (r.size : Int) < 0
    · refine ⟨1, by simp, ?_, Or.inr ?_⟩
      · rw [pruneList_neg _ _ hneg]
        simp
      · simp
        omega
    · obtain ⟨k, hk, hlist, hsum⟩ := ih (a - r.size) (by omega) (by omega) hl
      refine ⟨k + 1, by simp; omega, ?_, ?_⟩
      · rw [hlist]
        simp
      · rcases hsum with hsum | hsum
        · exact Or.inl (by simp [hsum])
        · refine Or.inr ?_
          simp only [List.take_succ_cons, List.map_cons, List.sum_cons]
          rw [Nat.cast_add]
          omega

theorem foldl_delete_tiles (tlist : List Nat) : ∀ tiles : List TileRow,
    tlist.foldl (fun ts t => ts.filter fun r => r.tileID ≠ t) tiles =
      tiles.filter (fun r => r.tileID ∉ tlist) := by
  induction tlist with
  | nil => intro tiles; simp
  | cons t tlist ih =>
    intro tiles
    rw [List.foldl_cons, ih, List.filter_filter]
    apply List.filter_congr
    intro r _
    by_cases h1 : r.tileID = t <;> by_cases h2 : r.tileID ∈ tlist <;> simp [h1, h2]

theorem sum_size_split (l : List TileRow) (p : TileRow → Bool) :
    (l.map (·.size)).sum =
      ((l.filter p).map (·.size)).sum + ((l.filter fun r => !p r).map (·.size)).sum := by
  induction l with
  | nil => rfl
  | cons r l ih =>
    cases hp : p r
    · simp [List.filter_cons, hp, ih]
      omega
    · simp [List.filter_cons, hp, ih]
      omega

theorem pruneCache_db (w : Worker) (n : Nat) (hvalid : w._valid = true) :
    (w._pruneCache n).1._db =
      { w._db with Tiles := w._db.Tiles.filter fun r =>
          r.tileID ∉ pruneList (pruneCandidates w._db w._getDefaultTileSet.1) (toInt64 n) } := by
  unfold Worker._pruneCache Worker._testTask
  simp only [hvalid, Bool.not_true, Bool.false_eq_true, if_false]
  rw [foldl_delete_tiles, getDefaultTileSet_db]

theorem sum_le_of_nodup_subset (pre rows : List TileRow) (hnd : pre.Nodup) (hsub : pre ⊆ rows) :
    (pre.map (·.size)).sum ≤ (rows.map (·.size)).sum := by
  obtain ⟨l', hperm, hsubl⟩ := List.subperm_of_subset hnd hsub
  have h1 : (pre.map (·.size)).sum = (l'.map (·.size)).sum :=
    ((hperm.map (·.size)).sum_eq).symm
  rw [h1]
  exact List.Sublist.sum_le_sum (hsubl.map (·.size)) (fun _ _ => Nat.zero_le _)

/-- C9 (amended).  On a valid worker whose `Tiles` respects its primary key
and holds sizes in the 64-bit signed range, and for every request
`n < 2 ^ 63`, with `id` the default set as `_getDefaultTileSet` resolves it:
Prune(n) only deletes tiles of `Tiles`; each deleted tile had exactly one
membership row and that row was in the default set; no tile kept among the
default set's unique tiles is older than a deleted one; at most 128 tiles are
deleted; the sum of the sizes in `Tiles` decreases by at least
min(n, sum of the sizes of the selected tiles); the other tables are as they
were. -/
theorem pruneCache_spec (w : Worker) (n : Nat) (hvalid : w._valid = true) (hn : n < 2 ^ 63)
    (hkey : (w._db.Tiles.map (·.tileID)).Nodup)
    (hsize : ∀ r ∈ w._db.Tiles, r.size < 2 ^ 63) :
    (∀ r ∈ (w._pruneCache n).1._db.Tiles, r ∈ w._db.Tiles) ∧
    (∀ r ∈ w._db.Tiles, r ∉ (w._pruneCache n).1._db.Tiles →
      UniqueTo w._db.SetTiles r.tileID w._getDefaultTileSet.1) ∧
    (∀ d ∈ uniqueTiles w._db w._getDefaultTileSet.1, d ∉ (w._pruneCache n).1._db.Tiles →
      ∀ k ∈ uniqueTiles w._db w._getDefaultTileSet.1, k ∈ (w._pruneCache n).1._db.Tiles →
        d.date ≤ k.date) ∧
    w._db.Tiles.length ≤ (w._pruneCache n).1._db.Tiles.length + 128 ∧
    ((w._pruneCache n).1._db.Tiles.map (·.size)).sum +
        min n ((pruneCandidates w._db w._getDefaultTileSet.1).map (·.size)).sum ≤
      (w._db.Tiles.map (·.size)).sum ∧
    (w._pruneCache n).1._db.TileSets = w._db.TileSets ∧
    (w._pruneCache n).1._db.SetTiles = w._db.SetTiles ∧
    (w._pruneCache n).1._db.TilesDownload = w._db.TilesDownload := by
  haveI : IsTotal TileRow (fun a b => a.date ≤ b.date) := ⟨fun a b => le_total a.date b.date⟩
  haveI : IsTrans TileRow (fun a b => a.date ≤ b.date) := ⟨fun _ _ _ h1 h2 => le_trans h1 h2⟩
  rw [pruneCache_db w n hvalid]
  simp only []
  -- the rows selected and the list built by the first loop
  have htiles : w._db.Tiles.Nodup := List.Nodup.of_map _ hkey
  have hU : (uniqueTiles w._db w._getDefaultTileSet.1).Nodup :=
    List.Nodup.sublist (List.filter_sublist _) htiles
  have hperm := List.perm_insertionSort (fun a b : TileRow => a.date ≤ b.date)
    (uniqueTiles w._db w._getDefaultTileSet.1)
  have hsorted := List.sorted_insertionSort (fun a b : TileRow => a.date ≤ b.date)
    (uniqueTiles w._db w._getDefaultTileSet.1)
  have hSnd := (hperm.nodup_iff).mpr hU
  have hcsub : ∀ r ∈ pruneCandidates w._db w._getDefaultTileSet.1, r ∈ w._db.Tiles := by
    intro r hr
    have h1 := hperm.subset (List.mem_of_mem_take hr)
    exact (List.mem_filter.mp h1).1
  have ht64 : toInt64 (n : Int) = n := toInt64_of_range _ (by omega) (by omega)
  obtain ⟨k, hk, hlist, hsum⟩ := pruneList_spec (pruneCandidates w._db w._getDefaultTileSet.1)
    n (by omega) (by omega) (fun r hr => hsize r (hcsub r hr))
  rw [ht64, hlist]
  have hpre : (pruneCandidates w._db w._getDefaultTileSet.1).take k =
      ((uniqueTiles w._db w._getDefaultTileSet.1).insertionSort
        (fun a b => a.date ≤ b.date)).take (min k 128) := by
    unfold pruneCandidates
    rw [List.take_take]
  have hpresub : ∀ r ∈ (pruneCandidates w._db w._getDefaultTileSet.1).take k, r ∈ w._db.Tiles :=
    fun r hr => hcsub r (List.mem_of_mem_take hr)
  have hprend : ((pruneCandidates w._db w._getDefaultTileSet.1).take k).Nodup := by
    rw [hpre]
    exact List.Nodup.sublist (List.take_sublist _ _) hSnd
  -- a row of `Tiles` carries a listed id exactly when it is one of the listed rows
  have hmem : ∀ r ∈ w._db.Tiles,
      (r.tileID ∈ ((pruneCandidates w._db w._getDefaultTileSet.1).take k).map (·.tileID) ↔
        r ∈ (pruneCandidates w._db w._getDefaultTileSet.1).take k) := by
    intro r hr
    constructor
    · intro h
      obtain ⟨c, hc, hct⟩ := List.mem_map.mp h
      have : c = r := List.inj_on_of_nodup_map hkey (hpresub c hc) hr hct
      rw [← this]
      exact hc
    · intro h
      exact List.mem_map.mpr ⟨r, h, rfl⟩
  have hdeleted : ∀ r ∈ w._db.Tiles,
      r ∉ w._db.Tiles.filter (fun r =>
        r.tileID ∉ ((pruneCandidates w._db w._getDefaultTileSet.1).take k).map (·.tileID)) →
      r ∈ (pruneCandidates w._db w._getDefaultTileSet.1).take k := by
    intro r hr hnot
    by_contra hc
    apply hnot
    exact List.mem_filter.mpr ⟨hr, by simpa using fun h => hc ((hmem r hr).mp h)⟩
  refine ⟨?_, ?_, ?_, ?_, ?_, ?_⟩
  rotate_right
  · simp
  · intro r hr
    exact (List.mem_filter.mp hr).1
  · intro r hr hnot
    have h1 := hdeleted r hr hnot
    have h2 := hperm.subset (List.mem_of_mem_take (List.mem_of_mem_take h1))
    have h3 := (List.mem_filter.mp h2).2
    exact (mem_uniqueTileIDs _ _ _).mp (by simpa using h3)
  · intro d hd hdnot x hx hxin
    have hdT : d ∈ w._db.Tiles := (List.mem_filter.mp hd).1
    have hxT : x ∈ w._db.Tiles := (List.mem_filter.mp hx).1
    have hdpre := hdeleted d hdT hdnot
    have hxnot : x ∉ (pruneCandidates w._db w._getDefaultTileSet.1).take k := by
      intro hxpre
      have := (List.mem_filter.mp hxin).2
      simp only [decide_eq_true_eq] at this
      exact this ((hmem x hxT).mpr hxpre)
    rw [hpre] at hdpre hxnot
    have hxS : x ∈ (uniqueTiles w._db w._getDefaultTileSet.1).insertionSort
        (fun a b => a.date ≤ b.date) := hperm.symm.subset hx
    rw [← List.take_append_drop (min k 128)
      ((uniqueTiles w._db w._getDefaultTileSet.1).insertionSort (fun a b => a.date ≤ b.date))]
      at hxS hsorted
    have hxdrop := (List.mem_append.mp hxS).resolve_left hxnot
    exact (List.pairwise_append.mp hsorted).2.2 d hdpre x hxdrop
  · have hlen := List.length_eq_countP_add_countP
      (fun r : TileRow => decide (r.tileID ∉
        ((pruneCandidates w._db w._getDefaultTileSet.1).take k).map (·.tileID))) w._db.Tiles
    rw [List.countP_eq_length_filter, List.countP_eq_length_filter] at hlen
    have hsub : List.Subperm (List.filter (fun a => decide ¬(decide (a.tileID ∉
        ((pruneCandidates w._db w._getDefaultTileSet.1).take k).map (·.tileID))) = true)
        w._db.Tiles) ((pruneCandidates w._db w._getDefaultTileSet.1).take k) := by
      apply List.subperm_of_subset (List.Nodup.sublist (List.filter_sublist _) htiles)
      intro r hr
      have h1 := List.mem_filter.mp hr
      have h2 : r.tileID ∈ ((pruneCandidates w._db w._getDefaultTileSet.1).take k).map (·.tileID) := by
        simpa using h1.2
      exact (hmem r h1.1).mp h2
    have h1 := hsub.length_le
    have h2 : ((pruneCandidates w._db w._getDefaultTileSet.1).take k).length ≤ 128 := by
      rw [hpre]
      exact le_trans (List.length_take_le _ _) (Nat.min_le_right _ _)
    omega
  · have hsplit := sum_size_split w._db.Tiles (fun r => decide (r.tileID ∉
        ((pruneCandidates w._db w._getDefaultTileSet.1).take k).map (·.tileID)))
    have hge : (((pruneCandidates w._db w._getDefaultTileSet.1).take k).map (·.size)).sum ≤
        ((w._db.Tiles.filter fun r => !decide (r.tileID ∉
          ((pruneCandidates w._db w._getDefaultTileSet.1).take k).map (·.tileID))).map
            (·.size)).sum := by
      apply sum_le_of_nodup_subset _ _ hprend
      intro r hr
      exact List.mem_filter.mpr ⟨hpresub r hr, by simpa using (hmem r (hpresub r hr)).mpr hr⟩
    have hmin : min n ((pruneCandidates w._db w._getDefaultTileSet.1).map (·.size)).sum ≤
        (((pruneCandidates w._db w._getDefaultTileSet.1).take k).map (·.size)).sum := by
      rcases hsum with hall | hmore
      · rw [hall, List.take_length]
        exact Nat.min_le_right _ _
      · have : n < (((pruneCandidates w._db w._getDefaultTileSet.1).take k).map (·.size)).sum := by
          exact_mod_cast hmore
        exact le_trans (Nat.min_le_left _ _) (le_of_lt this)
    omega

/-- Witness of C9 (amended): the fifth scenario with a request of 3 MB. -/
theorem pruneCache_spec_witness :
    (pruneWorker._db.Tiles.map (·.size)).sum = 10485760 ∧
    ((pruneWorker._pruneCache 3145728).1._db.Tiles.map (·.size)).sum +
        min 3145728 ((pruneCandidates pruneWorker._db pruneWorker._getDefaultTileSet.1).map
          (·.size)).sum ≤
      (pruneWorker._db.Tiles.map (·.size)).sum :=
  ⟨by decide,
   (pruneCache_spec pruneWorker 3145728 rfl (by norm_num) (by decide) (by decide)).2.2.2.2.1⟩

/-- Counterexample to C9 as stated ("for every n"): a request of `2 ^ 63`
bytes is negative once cast to `qint64`, the first loop takes no tile and
nothing is deleted, although the ten selected tiles weigh 10 MB: the sizes in
`Tiles` do not decrease by min(n, sum of the selected sizes). -/
theorem pruneCache_spec_counterexample :
    pruneWorker._valid = true ∧
    toInt64 ((2 ^ 63 : Nat) : Int) = -2 ^ 63 ∧
    ((pruneWorker._pruneCache (2 ^ 63)).1._db.Tiles.map (·.tileID)) =
      pruneWorker._db.Tiles.map (·.tileID) ∧
    ((pruneCandidates pruneWorker._db pruneWorker._getDefaultTileSet.1).map (·.size)).sum
      = 10485760 ∧
    ¬ (((pruneWorker._pruneCache (2 ^ 63)).1._db.Tiles.map (·.size)).sum +
        min (2 ^ 63) ((pruneCandidates pruneWorker._db pruneWorker._getDefaultTileSet.1).map
          (·.size)).sum ≤
      (pruneWorker._db.Tiles.map (·.size)).sum) := by
  decide

/-! ### Reset -/

/-- C10. Reset postcondition: the four `DROP TABLE` followed by `_createDB`
leave a file in which all four tables exist, `Tiles`, `SetTiles` and
`TilesDownload` are empty and `TileSets` holds exactly one row, the default
set (`defaultSet = 1`, name "Default Tile Set"); on a valid worker the Reset
task completes without error, leaves the worker valid and its database is
that file. -/
theorem resetCacheDatabase_spec (now : Nat) (w : Worker) (hvalid : w._valid = true) :
    (resetSchema now (Schema.ofDB w._db)).1 = true ∧
    (resetSchema now (Schema.ofDB w._db)).2 =
      { Tiles := some []
        TileSets := some [{ setID := 1, name := "Default Tile Set", defaultSet := 1, date := now }]
        SetTiles := some []
        TilesDownload := some [] } ∧
    (w._resetCacheDatabase now).2 = .ok () ∧
    (w._resetCacheDatabase now).1._valid = true ∧
    (w._resetCacheDatabase now).1._db.Tiles = [] ∧
    (w._resetCacheDatabase now).1._db.SetTiles = [] ∧
    (w._resetCacheDatabase now).1._db.TilesDownload = [] ∧
    ∃ row, (w._resetCacheDatabase now).1._db.TileSets = [row] ∧ row.defaultSet = 1 ∧
      row.name = "Default Tile Set" := by
  have hschema : resetSchema now (Schema.ofDB w._db) =
      (true, { Tiles := some []
               TileSets := some [{ setID := 1, name := "Default Tile Set", defaultSet := 1,
                                   date := now }]
               SetTiles := some []
               TilesDownload := some [] }) := by
    simp [resetSchema, _createDB, createIfNotExists, nextRowId]
  unfold Worker._resetCacheDatabase Worker._testTask
  simp only [hvalid, Bool.not_true, Bool.false_eq_true, if_false, hschema]
  refine ⟨trivial, trivial, ?_, ?_, ?_, ?_, ?_, ⟨_, rfl, rfl, rfl⟩⟩ <;> first | rfl | trivial

/-- Witness of C10: a Reset of the cache of the third scenario. -/
theorem resetCacheDatabase_spec_witness :
    scenario3._valid = true ∧
    (scenario3._resetCacheDatabase 1700000200).1._db =
      { TileSets := [{ setID := 1, name := "Default Tile Set", defaultSet := 1,
                       date := 1700000200 }] } ∧
    (scenario3._resetCacheDatabase 1700000200).1._db.Tiles = [] :=
  ⟨rfl, by decide, (resetCacheDatabase_spec 1700000200 scenario3 rfl).2.2.2.2.1⟩

/-! ### The task queue -/

/-- C17, evaluation of the code: `stop()` on a worker with two queued tasks
destroys both task objects and leaves both in the queue, so the queue is not
empty afterwards and the next dequeue of the worker loop hands out a task
that has been destroyed. -/
theorem stop_keeps_destroyed_tasks_queued :
    queuedWorker.stop._taskQueue = queuedWorker._taskQueue ∧
    queuedWorker.stop._taskQueue ≠ [] ∧
    queuedWorker.stop._destroyed = queuedWorker._taskQueue ∧
    (∃ task rest, queuedWorker.stop.dequeue = some (task, rest) ∧
      task ∈ queuedWorker.stop._destroyed ∧ task ∈ queuedWorker._taskQueue) := by
  refine ⟨rfl, by decide, by decide, ⟨_, _, rfl, by decide, by decide⟩⟩

/-- C18. `enqueueTask` returns false exactly when the database is not valid
and the task is not an Init task; then the task carries the error "Database
Not Initialized" and the queue is unchanged; in every other case it returns
true and the queue is the former queue with the task appended at its tail. -/
theorem enqueueTask_spec (q : QGCCacheWorker) (task : QGCMapTask) :
    ((q.enqueueTask task).1 = false ↔ (q._valid = false ∧ task.type ≠ TaskType.taskInit)) ∧
    ((q.enqueueTask task).1 = false →
      (q.enqueueTask task).2.1.error = some "Database Not Initialized" ∧
      (q.enqueueTask task).2.2._taskQueue = q._taskQueue) ∧
    ((q.enqueueTask task).1 = true →
      (q.enqueueTask task).2.1 = task ∧
      (q.enqueueTask task).2.2._taskQueue = q._taskQueue ++ [task]) := by
  unfold QGCCacheWorker.enqueueTask
  by_cases hv : q._valid = true
  · simp [hv]
  · by_cases ht : task.type = TaskType.taskInit
    · simp [hv, ht]
    · simp [hv, ht]

/-! ### Statistics of a set -/

/-- C20, evaluation of the code: set "A" has two tiles saved, one planned
and no tile of its own.  `_updateSetTotals` computes
`expectedUcount = totalTileCount - savedTileCount` in `quint32` before it
looks at the count of unique tiles, so the difference 1 - 2 wraps and the
descriptor reports 4294967295 unique tiles of 13652 bytes each, not 0. -/
theorem updateSetTotals_unique_count_wraps :
    (sharedWorker._getTileSets sampleUrl).2.toOption.map (fun sets => sets.map fun s =>
        (s.name, s.totalTileCount, s.savedTileCount, s.uniqueTileCount, s.uniqueTileSize)) =
      some [("Default Tile Set", 0, 2, 0, 0),
            ("A", 1, 2, 4294967295, 4294967295 * 13652),
            ("B", 2, 2, 0, 0)] ∧
    (uniqueTiles sharedWorker._db 2).length = 0 ∧
    (sharedWorker._updateSetTotals sampleUrl
        { name := "A", id := 2, type := "osm", totalTileCount := 1 }).2.uniqueTileCount
      = 2 ^ 32 - 1 := by
  decide

/-- C12, evaluation of the code: the worker saves a tile on a fresh cache,
which caches the default set id 1, then a replace Import installs a database
whose default set has id 2 and whose set "Alpha" has id 1.  `_importSets`
leaves `_defaultSet` as it was, so the next SaveTile without a set links the
new tile to set 1, "Alpha", and not to the set with `defaultSet = 1`.  In the
same way a worker that first reads the default set id 2 from that database
and then runs Reset, after which the default set has id 1, links the next
tile to the set id 2, which no longer exists. -/
theorem saveTile_links_to_stale_default_set :
    workerA._defaultSet = 1 ∧
    staleWorker._valid = true ∧
    (staleWorker._db.TileSets.map fun r => (r.setID, r.name, r.defaultSet)) =
      [(1, "Alpha", 0), (2, "Default Tile Set", 1)] ∧
    staleWorker._db.Tiles = [] ∧
    staleWorker._defaultSet = 1 ∧
    ((staleWorker._saveTile 1700000200 tileB)._db.Tiles.map fun r => (r.tileID, r.hash)) =
      [(1, "B")] ∧
    (staleWorker._saveTile 1700000200 tileB)._db.SetTiles = [{ setID := 1, tileID := 1 }] ∧
    (let w := (freshWorker._importSets id 1700000100 (some swappedFile) true).1._saveTile
        1700000200 tileB
     let w' := (w._resetCacheDatabase 1700000300).1._saveTile 1700000400 tileA
     w._defaultSet = 2 ∧
     (w'._db.TileSets.map fun r => (r.setID, r.defaultSet)) = [(1, 1)] ∧
     w'._db.SetTiles = [{ setID := 2, tileID := 1 }]) := by
  decide

/-! ### Export -/

/-- C19, evaluation of the code on the third scenario: S1 and S2 share the
tile H2.  The export of S1 copies H1 and H2; in the export of S2 the insert
of H2 fails on the `UNIQUE` hash and the loop goes on without linking, so the
exported file has no `SetTiles` row that links H2 to the exported S2. -/
theorem exportSets_skips_link_of_shared_tile :
    (scenario3._db.SetTiles.filter fun m => m.setID = 3) =
      [{ setID := 3, tileID := 2 }, { setID := 3, tileID := 3 }] ∧
    ((scenario3._exportSets sampleUrl 1700000500
        [{ name := "S1", id := 2, type := "osm", totalTileCount := 3 },
         { name := "S2", id := 3, type := "osm", totalTileCount := 3 }]).1.map fun e =>
      (e.TileSets.map fun r => (r.setID, r.name),
       e.Tiles.map fun r => (r.tileID, r.hash),
       e.SetTiles)) =
      some ([(1, "S1"), (2, "S2")],
            [(1, "H1"), (2, "H2"), (3, "H3")],
            [{ setID := 1, tileID := 1 }, { setID := 1, tileID := 2 },
             { setID := 2, tileID := 3 }]) ∧
    (scenario3._exportSets sampleUrl 1700000500
        [{ name := "S1", id := 2, type := "osm", totalTileCount := 3 },
         { name := "S2", id := 3, type := "osm", totalTileCount := 3 }]).2 = none := by
  decide

/-! ### Merge import -/

/-- C15, evaluation of the code: the import file holds two tiles, both
shared by its sets "A" and "B", so no tile is unique to a set and the
merge import saves none.  `tileCount` starts at 2 and is never lowered, so the final
test `tileCount == 0` fails and the task ends without the error "No unique
tiles in imported database". -/
theorem importSets_saves_nothing_without_error :
    ((Schema.ofDB sharedWorker._db).Tiles.getD []).length = 2 ∧
    (freshWorker._importSets id 1700000600 (some (Schema.ofDB sharedWorker._db)) false).2 = none ∧
    (freshWorker._importSets id 1700000600 (some (Schema.ofDB sharedWorker._db)) false).1._db.Tiles
      = freshWorker._db.Tiles ∧
    (freshWorker._importSets id 1700000600 (some (Schema.ofDB sharedWorker._db)) false).1._db.Tiles
      = [] ∧
    (importMerge id 1700000600 freshWorker (some (Schema.ofDB sharedWorker._db))).currentCount = 0 ∧
    (importMerge id 1700000600 freshWorker (some (Schema.ofDB sharedWorker._db))).tileCount = 2 := by
  decide

theorem le_foldl_max (keys : List Nat) : ∀ (acc k : Nat), k = acc ∨ k ∈ keys →
    k ≤ keys.foldl max acc := by
  induction keys with
  | nil =>
    intro acc k hk
    rcases hk with hk | hk
    · simp [hk]
    · simp at hk
  | cons a keys ih =>
    intro acc k hk
    rw [List.foldl_cons]
    rcases hk with hk | hk
    · exact le_trans (by rw [hk]; exact le_max_left _ _) (ih (max acc a) (max acc a) (Or.inl rfl))
    · rcases List.mem_cons.mp hk with hk | hk
      · exact le_trans (by rw [hk]; exact le_max_right _ _)
          (ih (max acc a) (max acc a) (Or.inl rfl))
      · exact ih (max acc a) k (Or.inr hk)

/-- An automatic key is larger than every key in use. -/
theorem lt_nextRowId (keys : List Nat) (k : Nat) (hk : k ∈ keys) : k < nextRowId keys := by
  unfold nextRowId
  exact Nat.lt_succ_of_le (le_foldl_max keys 0 k (Or.inr hk))

theorem findTileSetID_isSome_iff (w : Worker) (name : String)
    (hread : readsAsText tileSetsColumns name) :
    (w._findTileSetID name).isSome = true ↔ nameInUse w._db name := by
  unfold Worker._findTileSetID nameInUse
  rw [if_pos hread, Option.isSome_map', List.find?_isSome]
  simp

theorem findTileSetID_isNone_iff (w : Worker) (name : String)
    (hread : readsAsText tileSetsColumns name) :
    (w._findTileSetID name).isNone = true ↔ ¬ nameInUse w._db name := by
  rw [← findTileSetID_isSome_iff w name hread]
  cases w._findTileSetID name <;> simp

/-- A string with a blank in it is not the name of a column. -/
theorem not_isName_of_blank (s column : String) (hs : ' ' ∈ s.toList)
    (hc : column ∈ tileSetsColumns ++ rowidNames) : ¬ isName s column := by
  intro h
  unfold isName at h
  have h32 : 32 ∈ s.toList.map foldCase := List.mem_map.mpr ⟨' ', hs, by decide⟩
  rw [h] at h32
  have hcols : ∀ c ∈ tileSetsColumns ++ rowidNames, 32 ∉ c.toList.map foldCase := by decide
  exact hcols column hc h32

/-- The digits of `%02d` hold neither a double quote nor a NUL. -/
theorem twoDigits_chars : ∀ k ∈ List.range 101, ∀ c ∈ (twoDigits k).toList,
    c.toNat ≠ 34 ∧ c.toNat ≠ 0 := by
  decide

/-- A name that reads as text still does with " NN" appended. -/
theorem readsAsText_testName (name : String) (k : Nat) (hk : k ≤ 100)
    (hread : readsAsText tileSetsColumns name) :
    readsAsText tileSetsColumns (name ++ " " ++ twoDigits k) := by
  obtain ⟨h1, h2, _⟩ := hread
  have hl : (name ++ " " ++ twoDigits k).toList =
      name.toList ++ [' '] ++ (twoDigits k).toList := by
    simp [String.toList]
  refine ⟨?_, ?_, ?_⟩
  · intro h
    have := congrArg String.toList h
    rw [hl] at this
    simp at this
  · intro c hc
    rw [hl] at hc
    rcases List.mem_append.mp hc with hc | hc
    · rcases List.mem_append.mp hc with hc | hc
      · exact h2 c hc
      · rw [List.mem_singleton.mp hc]
        decide
    · exact twoDigits_chars k (List.mem_range.mpr (by omega)) c hc
  · intro column hcol
    apply not_isName_of_blank _ _ _ hcol
    rw [hl]
    simp

theorem uniqueNameLoop_spec (latin1 : String → String) (w : Worker) (name : String)
    (htext : ∀ j, j ≤ 100 → readsAsText tileSetsColumns (testName latin1 name j)) :
    ∀ fuel tc k, fuel + tc = 100 → tc < k → k ≤ 100 →
    (∀ j, tc < j → j < k → nameInUse w._db (testName latin1 name j)) →
    (¬ nameInUse w._db (testName latin1 name k) ∨ k = 100) →
    uniqueNameLoop latin1 w name fuel tc = testName latin1 name k := by
  intro fuel
  induction fuel with
  | zero => intro tc k h1 h2 h3; omega
  | succ fuel ih =>
    intro tc k hf htc hk hused hfree
    unfold uniqueNameLoop
    by_cases hkc : k = tc + 1
    · subst hkc
      have hcond : (w._findTileSetID (testName latin1 name (tc + 1))).isNone = true ∨
          tc + 1 > 99 := by
        rcases hfree with hfree | hfree
        · exact Or.inl ((findTileSetID_isNone_iff _ _ (htext _ (by omega))).mpr hfree)
        · exact Or.inr (by omega)
      rw [if_pos hcond]
    · have hcond : ¬ ((w._findTileSetID (testName latin1 name (tc + 1))).isNone = true ∨
          tc + 1 > 99) := by
        rintro (h | h)
        · exact (findTileSetID_isNone_iff _ _ (htext _ (by omega))).mp h
            (hused (tc + 1) (by omega) (by omega))
        · omega
      rw [if_neg hcond]
      exact ih (tc + 1) k (by omega) (by omega) hk
        (fun j h1 h2 => hused j (by omega) h2) hfree

theorem uniqueNameLoop_congr (latin1 : String → String) (w w' : Worker) (name : String)
    (h : w'._db = w._db) (hq : w'._sqlite = w._sqlite) : ∀ fuel tc,
    uniqueNameLoop latin1 w' name fuel tc = uniqueNameLoop latin1 w name fuel tc := by
  intro fuel
  induction fuel with
  | zero => intro tc; rfl
  | succ fuel ih =>
    intro tc
    unfold uniqueNameLoop
    have hf : ∀ n, w'._findTileSetID n = w._findTileSetID n := by
      intro n
      unfold Worker._findTileSetID
      rw [h, hq]
    rw [hf, ih]

theorem importSetName_congr (latin1 : String → String) (w w' : Worker) (name : String)
    (h : w'._db = w._db) (hq : w'._sqlite = w._sqlite) :
    importSetName latin1 w' name = importSetName latin1 w name := by
  unfold importSetName
  have hf : w'._findTileSetID name = w._findTileSetID name := by
    unfold Worker._findTileSetID
    rw [h, hq]
  rw [hf, uniqueNameLoop_congr latin1 w w' name h hq]

theorem importTile_tileSets (now : Nat) (id : Nat) (acc : Worker × Nat) (t : TileRow) :
    (importTile now id acc t).1._db.TileSets = acc.1._db.TileSets := by
  unfold importTile insertTile insertSetTile
  split
  · rename_i r heq
    split at heq
    · simp at heq
    · simp only [Option.some.injEq] at heq
      rw [← heq]
  · rfl

theorem foldl_importTile_tileSets (now : Nat) (id : Nat) (tiles : List TileRow) :
    ∀ acc : Worker × Nat,
    (tiles.foldl (importTile now id) acc).1._db.TileSets = acc.1._db.TileSets := by
  induction tiles with
  | nil => intro acc; rfl
  | cons t tiles ih =>
    intro acc
    rw [List.foldl_cons, ih, importTile_tileSets]

theorem insertImportedSet_free (now : Nat) (db : DB) (s : TileSetRow) (name : String)
    (hfree : ¬ nameInUse db name) :
    insertImportedSet now db s name =
      some (nextRowId (db.TileSets.map (·.setID)),
        { db with TileSets := db.TileSets ++
          [importedRow now s name (nextRowId (db.TileSets.map (·.setID)))] }) := by
  unfold insertImportedSet
  have h : db.TileSets.any (fun r => r.name = name) = false := by
    simp only [List.any_eq_false, decide_eq_true_eq]
    intro r hr hn
    exact hfree ⟨r, hr, hn⟩
  simp [h]

theorem insertImportedSet_used (now : Nat) (db : DB) (s : TileSetRow) (name : String)
    (hused : nameInUse db name) : insertImportedSet now db s name = none := by
  unfold insertImportedSet
  have h : db.TileSets.any (fun r => r.name = name) = true := by
    simp only [List.any_eq_true, decide_eq_true_eq]
    exact hused
  simp [h]

/-- The rows of `TileSets` before the insert of a new set keep their content
when `numTiles` of the new set is updated, and are all that is left when the
new set is deleted. -/
theorem map_numTiles_append_new (rows : List TileSetRow) (row : TileSetRow) (n : Nat)
    (hrow : row.setID = nextRowId (rows.map (·.setID))) :
    (rows ++ [row]).map (fun r => if r.setID = row.setID then { r with numTiles := n } else r) =
      rows ++ [{ row with numTiles := n }] := by
  rw [List.map_append]
  congr 1
  · conv_rhs => rw [← List.map_id rows]
    apply List.map_congr_left
    intro r hr
    have := lt_nextRowId (rows.map (·.setID)) r.setID (List.mem_map.mpr ⟨r, hr, rfl⟩)
    rw [if_neg (by omega)]
    rfl
  · simp

theorem filter_ne_append_new (rows : List TileSetRow) (row : TileSetRow)
    (hrow : row.setID = nextRowId (rows.map (·.setID))) :
    (rows ++ [row]).filter (fun r => r.setID ≠ row.setID) = rows := by
  rw [List.filter_append]
  have h1 : rows.filter (fun r => r.setID ≠ row.setID) = rows := by
    simp only [List.filter_eq_self, decide_eq_true_eq]
    intro r hr
    have := lt_nextRowId (rows.map (·.setID)) r.setID (List.mem_map.mpr ⟨r, hr, rfl⟩)
    omega
  rw [h1]
  simp

/-- The effect on `TileSets` of the second half of an import round: when the
round saved a tile, `numTiles` of the target set is rewritten; when it saved
none, a target set made for a source set that is not the default set is
deleted and nothing else changes. -/
theorem importSetTiles_tileSets (now : Nat) (src : Schema) (s : TileSetRow) (st : ImportState)
    (id : Nat) (w1 : Worker) :
    (st.currentCount < (importSetTiles now src s st id w1).currentCount →
      ∃ n, (importSetTiles now src s st id w1).w._db.TileSets =
        (updateNumTiles w1._db id n).TileSets) ∧
    (¬ st.currentCount < (importSetTiles now src s st id w1).currentCount →
      (importSetTiles now src s st id w1).w._db.TileSets =
        if s.defaultSet = 0 then w1._db.TileSets.filter (fun r => r.setID ≠ id)
        else w1._db.TileSets) := by
  have hts := foldl_importTile_tileSets now id (uniqueTiles src.toDB s.setID) (w1, 0)
  unfold importSetTiles
  simp only []
  generalize List.foldl (importTile now id) (w1, 0) (uniqueTiles src.toDB s.setID) = r at hts ⊢
  constructor
  · intro hlt
    have hpos : r.2 > 0 := by omega
    have hne : ¬ (r.2 = 0 ∧ s.defaultSet = 0) := fun h => by omega
    rw [if_pos hpos, if_neg hne]
    refine ⟨(savedTiles r.1._db id).length, ?_⟩
    unfold updateNumTiles
    simp only [hts]
  · intro hlt
    have hzero : r.2 = 0 := by omega
    have hpos : ¬ r.2 > 0 := by omega
    rw [if_neg hpos]
    by_cases hs : s.defaultSet = 0
    · rw [if_pos ⟨hzero, hs⟩, if_pos hs, deleteTileSet_db]
      simp only [hts]
    · rw [if_neg (fun h => hs h.2), if_neg hs, hts]

theorem importTarget_nondefault_free (latin1 : String → String) (now : Nat) (w : Worker)
    (s : TileSetRow) (hs : s.defaultSet = 0)
    (hfree : ¬ nameInUse w._db (importSetName latin1 w s.name)) :
    importTarget latin1 now w s =
      some (nextRowId (w._db.TileSets.map (·.setID)),
        { w._getDefaultTileSet.2 with _db := { w._db with TileSets := w._db.TileSets ++
          [importedRow now s (importSetName latin1 w s.name)
            (nextRowId (w._db.TileSets.map (·.setID)))] } }) := by
  have hdb := getDefaultTileSet_db w
  have hname := importSetName_congr latin1 w w._getDefaultTileSet.2 s.name hdb
    (getDefaultTileSet_sqlite w)
  unfold importTarget
  rw [if_pos hs, hdb, hname, insertImportedSet_free now w._db s _ hfree]
  rfl

theorem importTarget_nondefault_used (latin1 : String → String) (now : Nat) (w : Worker)
    (s : TileSetRow) (hs : s.defaultSet = 0)
    (hused : nameInUse w._db (importSetName latin1 w s.name)) :
    importTarget latin1 now w s = none := by
  have hdb := getDefaultTileSet_db w
  have hname := importSetName_congr latin1 w w._getDefaultTileSet.2 s.name hdb
    (getDefaultTileSet_sqlite w)
  unfold importTarget
  rw [if_pos hs, hdb, hname, insertImportedSet_used now w._db s _ hused]
  rfl

/-- One round of the merge import for a source set that is not the default
set, when the picked name is free and the file has its `SetTiles`: the round
does not end the loop, and `TileSets` afterwards is `TileSets` before,
followed by the new set (with its recomputed `numTiles`) when the round saved
a tile, and nothing else when it saved none. -/
theorem importSet_nondefault_tileSets (latin1 : String → String) (now : Nat) (src : Schema)
    (st : ImportState) (s : TileSetRow) (hs : s.defaultSet = 0)
    (hfile : src.SetTiles.isSome = true)
    (hfree : ¬ nameInUse st.w._db (importSetName latin1 st.w s.name)) :
    (importSet latin1 now src st s).2 = true ∧
    (st.currentCount < (importSet latin1 now src st s).1.currentCount →
      ∃ n, (importSet latin1 now src st s).1.w._db.TileSets = st.w._db.TileSets ++
        [{ importedRow now s (importSetName latin1 st.w s.name)
             (nextRowId (st.w._db.TileSets.map (·.setID))) with numTiles := n }]) ∧
    (¬ st.currentCount < (importSet latin1 now src st s).1.currentCount →
      (importSet latin1 now src st s).1.w._db.TileSets = st.w._db.TileSets) := by
  have hnone : src.SetTiles.isNone = false := by
    cases h : src.SetTiles <;> simp [h] at hfile ⊢
  unfold importSet
  rw [importTarget_nondefault_free latin1 now st.w s hs hfree]
  simp only [hnone, Bool.false_eq_true, if_false]
  refine ⟨trivial, ?_, ?_⟩
  · intro hlt
    obtain ⟨n, hn⟩ := (importSetTiles_tileSets now src s st _ _).1 hlt
    refine ⟨n, ?_⟩
    rw [hn]
    unfold updateNumTiles
    exact map_numTiles_append_new st.w._db.TileSets
      (importedRow now s (importSetName latin1 st.w s.name)
        (nextRowId (st.w._db.TileSets.map fun x : TileSetRow => x.setID))) n (by rfl)
  · intro hlt
    rw [(importSetTiles_tileSets now src s st _ _).2 hlt, if_pos hs]
    exact filter_ne_append_new st.w._db.TileSets
      (importedRow now s (importSetName latin1 st.w s.name)
        (nextRowId (st.w._db.TileSets.map fun x : TileSetRow => x.setID))) (by rfl)

/-- C14 (amended). For a source set that is not the default set and whose name
passes unchanged through the conversion of `asprintf` and reads as text
between double quotes in the lookup statement (it is not empty, holds no
double quote and no NUL, and is not the name of a column of `TileSets`), a
round of the merge import picks: the source name when no set has it; else "<name> NN" for the
smallest NN in 01..99 whose name is free; else "<name> 100".  When the picked
name is free the set is created under it, every set that was there before is
still there unchanged, and the new set stays (with its recomputed `numTiles`)
exactly when the round saved a tile.  When the picked name is in use no set
is created, the database is unchanged and the import stops with the error
"Error adding imported tile set to database". -/
theorem importSet_picks_unique_name (latin1 : String → String) (now : Nat) (src : Schema)
    (st : ImportState) (s : TileSetRow) (hs : s.defaultSet = 0)
    (hlatin : latin1 s.name = s.name) (hread : readsAsText tileSetsColumns s.name)
    (hfile : src.SetTiles.isSome = true) :
    (¬ nameInUse st.w._db s.name → importSetName latin1 st.w s.name = s.name) ∧
    (nameInUse st.w._db s.name → ∀ k, 1 ≤ k → k ≤ 100 →
      (∀ j, 1 ≤ j → j < k → nameInUse st.w._db (s.name ++ " " ++ twoDigits j)) →
      ¬ nameInUse st.w._db (s.name ++ " " ++ twoDigits k) →
      importSetName latin1 st.w s.name = s.name ++ " " ++ twoDigits k) ∧
    (nameInUse st.w._db s.name →
      (∀ j, 1 ≤ j → j ≤ 99 → nameInUse st.w._db (s.name ++ " " ++ twoDigits j)) →
      importSetName latin1 st.w s.name = s.name ++ " " ++ twoDigits 100) ∧
    (¬ nameInUse st.w._db (importSetName latin1 st.w s.name) →
      (importSet latin1 now src st s).2 = true ∧
      (∀ r ∈ st.w._db.TileSets, r ∈ (importSet latin1 now src st s).1.w._db.TileSets) ∧
      (st.currentCount < (importSet latin1 now src st s).1.currentCount →
        ∃ n, (importSet latin1 now src st s).1.w._db.TileSets = st.w._db.TileSets ++
          [{ importedRow now s (importSetName latin1 st.w s.name)
               (nextRowId (st.w._db.TileSets.map (·.setID))) with numTiles := n }]) ∧
      (¬ st.currentCount < (importSet latin1 now src st s).1.currentCount →
        (importSet latin1 now src st s).1.w._db.TileSets = st.w._db.TileSets)) ∧
    (nameInUse st.w._db (importSetName latin1 st.w s.name) →
      (importSet latin1 now src st s).2 = false ∧
      (importSet latin1 now src st s).1.w._db = st.w._db ∧
      (importSet latin1 now src st s).1.error =
        some "Error adding imported tile set to database") := by
  have htest : ∀ j, testName latin1 s.name j = s.name ++ " " ++ twoDigits j := by
    intro j
    unfold testName
    rw [hlatin]
  have htext : ∀ j, j ≤ 100 → readsAsText tileSetsColumns (testName latin1 s.name j) := by
    intro j hj
    rw [htest]
    exact readsAsText_testName s.name j hj hread
  refine ⟨?_, ?_, ?_, ?_, ?_⟩
  · intro hfree
    unfold importSetName
    have h : (st.w._findTileSetID s.name).isSome = false := by
      cases hc : (st.w._findTileSetID s.name).isSome
      · rfl
      · exact absurd ((findTileSetID_isSome_iff _ _ hread).mp hc) hfree
    rw [h]
    rfl
  · intro hused k hk1 hk100 hbelow hfree
    unfold importSetName
    rw [if_pos ((findTileSetID_isSome_iff _ _ hread).mpr hused), ← htest k]
    apply uniqueNameLoop_spec latin1 st.w s.name htext 100 0 k rfl (by omega) hk100
    · intro j hj1 hj2
      rw [htest]
      exact hbelow j (by omega) hj2
    · rw [htest]
      exact Or.inl hfree
  · intro hused hall
    unfold importSetName
    rw [if_pos ((findTileSetID_isSome_iff _ _ hread).mpr hused), ← htest 100]
    apply uniqueNameLoop_spec latin1 st.w s.name htext 100 0 100 rfl (by omega) (le_refl _)
    · intro j hj1 hj2
      rw [htest]
      exact hall j (by omega) (by omega)
    · exact Or.inr rfl
  · intro hfree
    obtain ⟨h1, h2, h3⟩ := importSet_nondefault_tileSets latin1 now src st s hs hfile hfree
    refine ⟨h1, ?_, h2, h3⟩
    intro r hr
    by_cases hlt : st.currentCount < (importSet latin1 now src st s).1.currentCount
    · obtain ⟨n, hn⟩ := h2 hlt
      rw [hn]
      exact List.mem_append_left _ hr
    · rw [h3 hlt]
      exact hr
  · intro hused
    unfold importSet
    rw [importTarget_nondefault_used latin1 now st.w s hs hused]
    exact ⟨rfl, getDefaultTileSet_db st.w, rfl⟩

/-- Witness of C14 (amended): the set "Alpha" of `alphaFile` imported into a
cache that holds a set "Alpha" is given the name "Alpha 01". -/
theorem importSet_picks_unique_name_witness :
    readsAsText tileSetsColumns "Alpha" ∧
    importSetName id alphaWorker "Alpha" = "Alpha 01" ∧
    (((alphaWorker._importSets id 1700000700 (some alphaFile) false).1._db.TileSets.map
      fun r => (r.setID, r.name, r.numTiles)) =
      [(1, "Default Tile Set", 0), (2, "Alpha", 5), (3, "Alpha 01", 1)]) ∧
    importSetName id alphaWorker "Alpha" = "Alpha" ++ " " ++ twoDigits 1 :=
  ⟨by decide, by decide, by decide,
   (importSet_picks_unique_name id 1700000700 alphaFile { w := alphaWorker, tileCount := 1 }
      { setID := 2, name := "Alpha", typeStr := some "OpenStreetMap", type := 1, numTiles := 1 }
      rfl rfl (by decide) rfl).2.1 (by decide) 1 (le_refl _) (by omega)
      (fun j h1 h2 => absurd h1 (by omega)) (by decide)⟩

set_option maxRecDepth 100000 in
set_option maxHeartbeats 2000000 in
/-- Counterexample to C14 as stated: the names "Alpha" and "Alpha 01" to
"Alpha 99" are all in use in the target and the import file brings a set
"Alpha" with one tile of its own.  The loop leaves at `testCount = 100` with
the name "Alpha 100", which is free, and the set is created under it.
Besides, no set of `alphaWorker` is called "name", but the lookup
`WHERE name = "name"` compares the column with itself and finds a set, so a
source set of that name is imported as "name 01". -/
theorem importSet_picks_unique_name_counterexample :
    (¬ nameInUse alphaWorker._db "name" ∧
     importSetName id alphaWorker "name" = "name 01") ∧
    (nameInUse crowdedWorker._db "Alpha" ∧
     ∀ j ∈ List.range 99, nameInUse crowdedWorker._db ("Alpha" ++ " " ++ twoDigits (j + 1))) ∧
    (fun r : Worker × Option String =>
      ((r.1._db.TileSets.filter fun x => x.setID > 101).map fun x => (x.setID, x.name, x.numTiles),
       r.1._db.SetTiles, r.2))
      (crowdedWorker._importSets id 1700000700 (some alphaFile) false) =
      ([(102, "Alpha 100", 1)], [{ setID := 102, tileID := 1 }], none) := by
  refine ⟨by decide, ?_, ?_⟩
  · decide
  · decide

/-! ### The default set across operations -/

theorem defaultNames_append_other (rows : List TileSetRow) (row : TileSetRow)
    (h : row.defaultSet ≠ 1) : defaultNames (rows ++ [row]) = defaultNames rows := by
  unfold defaultNames
  rw [List.filter_append, List.filter_cons_of_neg (by simpa using h)]
  simp

theorem defaultNames_map (rows : List TileSetRow) (f : TileSetRow → TileSetRow)
    (hd : ∀ r, (f r).defaultSet = r.defaultSet)
    (hn : ∀ r, r.defaultSet = 1 → (f r).name = r.name) :
    defaultNames (rows.map f) = defaultNames rows := by
  unfold defaultNames
  induction rows with
  | nil => rfl
  | cons r rows ih =>
    rw [List.map_cons]
    by_cases h : r.defaultSet = 1
    · rw [List.filter_cons_of_pos (by simpa [hd] using h),
        List.filter_cons_of_pos (by simpa using h), List.map_cons, List.map_cons, ih, hn r h]
    · rw [List.filter_cons_of_neg (by simpa [hd] using h),
        List.filter_cons_of_neg (by simpa using h), ih]

theorem defaultNames_filter (rows : List TileSetRow) (p : TileSetRow → Bool)
    (h : ∀ r ∈ rows, r.defaultSet = 1 → p r = true) :
    defaultNames (rows.filter p) = defaultNames rows := by
  unfold defaultNames
  rw [List.filter_filter]
  congr 1
  apply List.filter_congr
  intro r hr
  by_cases hd : r.defaultSet = 1
  · simp [hd, h r hr hd]
  · simp [hd]

theorem saveTile_tileSets (now : Nat) (w : Worker) (tile : QGCCacheTile) :
    (w._saveTile now tile)._db.TileSets = w._db.TileSets := by
  unfold Worker._saveTile
  split
  · rfl
  · split
    · rfl
    · rename_i tileID db heq
      have hts : db.TileSets = w._db.TileSets := by
        unfold insertTile at heq
        split at heq
        · simp at heq
        · simp only [Option.some.injEq, Prod.mk.injEq] at heq
          rw [← heq.2]
      unfold insertSetTile
      split
      · simp only [getDefaultTileSet_db, hts]
      · simp only [hts]

theorem addPlanTile_tileSets (uf : UrlFactory) (type : String) (id : Nat) (w : Worker)
    (t : Int × Int × Int) : (addPlanTile uf type id w t)._db.TileSets = w._db.TileSets := by
  unfold addPlanTile insertDownload insertSetTile
  simp only []
  split
  · split <;> rfl
  · rfl

theorem foldl_addPlanTile_tileSets (uf : UrlFactory) (type : String) (id : Nat)
    (l : List (Int × Int × Int)) : ∀ w : Worker,
    (l.foldl (addPlanTile uf type id) w)._db.TileSets = w._db.TileSets := by
  induction l with
  | nil => intro w; rfl
  | cons t l ih =>
    intro w
    rw [List.foldl_cons, ih, addPlanTile_tileSets]

theorem createTileSet_defaultNames (uf : UrlFactory) (now : Nat) (w : Worker)
    (set : QGCCachedTileSet) :
    defaultNames (w._createTileSet uf now set).1._db.TileSets = defaultNames w._db.TileSets := by
  unfold Worker._createTileSet
  split
  · rfl
  · split
    · rfl
    · rename_i setID db heq
      simp only [updateSetTotals_db, foldl_addPlanTile_tileSets]
      unfold insertTileSet at heq
      split at heq
      · simp at heq
      · simp only [Option.some.injEq, Prod.mk.injEq] at heq
        rw [← heq.2]
        exact defaultNames_append_other _ _ (by simp)

theorem renameTileSet_defaultNames (w : Worker) (setID : Nat) (newName : String)
    (hspare : ∀ r ∈ w._db.TileSets, r.setID = setID → r.defaultSet ≠ 1)
    (hplain : plainName newName) :
    defaultNames (w._renameTileSet setID newName).1._db.TileSets =
      defaultNames w._db.TileSets := by
  unfold Worker._renameTileSet
  split
  · rfl
  · rw [if_pos hplain]
    split
    · rfl
    · simp only []
      unfold defaultNames
      have hf : (w._db.TileSets.map fun r =>
            if r.setID = setID then { r with name := newName } else r).filter
            (fun r => r.defaultSet = 1) =
          w._db.TileSets.filter (fun r => r.defaultSet = 1) := by
        rw [List.filter_map]
        have h1 : List.filter ((fun r : TileSetRow => decide (r.defaultSet = 1)) ∘ fun r =>
              if r.setID = setID then { r with name := newName } else r) w._db.TileSets =
            List.filter (fun r => decide (r.defaultSet = 1)) w._db.TileSets := by
          apply List.filter_congr
          intro r _
          simp only [Function.comp_apply]
          split <;> rfl
        rw [h1]
        conv_rhs => rw [← List.map_id (List.filter (fun r => decide (r.defaultSet = 1))
          w._db.TileSets)]
        apply List.map_congr_left
        intro r hr
        have hr' := List.mem_filter.mp hr
        have hd : r.defaultSet = 1 := by simpa using hr'.2
        rw [if_neg (fun h => hspare r hr'.1 h hd)]
        rfl
      rw [hf]

theorem deleteTileSetTask_defaultNames (w : Worker) (setID : Nat)
    (hspare : ∀ r ∈ w._db.TileSets, r.setID = setID → r.defaultSet ≠ 1) :
    defaultNames (w._deleteTileSetTask setID).1._db.TileSets = defaultNames w._db.TileSets := by
  unfold Worker._deleteTileSetTask
  split
  · rfl
  · simp only [deleteTileSet_db]
    apply defaultNames_filter
    intro r hr hd
    simp only [ne_eq, decide_not, Bool.not_eq_true', decide_eq_false_iff_not]
    exact fun h => hspare r hr h hd

theorem pruneCache_tileSets (w : Worker) (n : Nat) :
    (w._pruneCache n).1._db.TileSets = w._db.TileSets := by
  by_cases hvalid : w._valid = true
  · rw [pruneCache_db w n hvalid]
  · unfold Worker._pruneCache Worker._testTask
    simp [hvalid]

theorem resetSchema_eq (now : Nat) (s : Schema) :
    resetSchema now s =
      (true, { Tiles := some []
               TileSets := some [{ setID := 1, name := "Default Tile Set", defaultSet := 1,
                                   date := now }]
               SetTiles := some []
               TilesDownload := some [] }) := by
  simp [resetSchema, _createDB, createIfNotExists, nextRowId]

theorem resetCacheDatabase_defaultNames (now : Nat) (w : Worker)
    (h : defaultNames w._db.TileSets = ["Default Tile Set"]) :
    defaultNames (w._resetCacheDatabase now).1._db.TileSets = ["Default Tile Set"] := by
  unfold Worker._resetCacheDatabase
  split
  · exact h
  · simp only [resetSchema_eq]
    rfl

theorem init_defaultNames (now : Nat) (w : Worker)
    (h : defaultNames w._db.TileSets = ["Default Tile Set"]) :
    (w._init now (Schema.ofDB w._db))._db = w._db := by
  have hany : (w._db.TileSets.any fun r => r.name = "Default Tile Set") = true := by
    have hmem : "Default Tile Set" ∈ defaultNames w._db.TileSets := by rw [h]; simp
    unfold defaultNames at hmem
    obtain ⟨r, hr, hn⟩ := List.mem_map.mp hmem
    simp only [List.any_eq_true, decide_eq_true_eq]
    exact ⟨r, (List.mem_filter.mp hr).1, hn⟩
  unfold Worker._init _createDB
  simp [Schema.ofDB, createIfNotExists, hany, Schema.toDB]

theorem importTarget_some (latin1 : String → String) (now : Nat) (w : Worker) (s : TileSetRow)
    (c : Nat × Worker) (h : importTarget latin1 now w s = some c) :
    (s.defaultSet = 0 ∧
      c.2._db.TileSets = w._db.TileSets ++
        [importedRow now s (importSetName latin1 w s.name) c.1] ∧
      c.1 = nextRowId (w._db.TileSets.map (·.setID))) ∨
    (s.defaultSet ≠ 0 ∧ c.2._db = w._db) := by
  by_cases hs : s.defaultSet = 0
  · left
    by_cases hused : nameInUse w._db (importSetName latin1 w s.name)
    · rw [importTarget_nondefault_used latin1 now w s hs hused] at h
      simp at h
    · rw [importTarget_nondefault_free latin1 now w s hs hused] at h
      simp only [Option.some.injEq] at h
      rw [← h]
      exact ⟨hs, rfl, rfl⟩
  · right
    unfold importTarget at h
    rw [if_neg hs] at h
    simp only [Option.some.injEq] at h
    rw [← h]
    exact ⟨hs, getDefaultTileSet_db w⟩

/-- A round of the merge import leaves the rows with `defaultSet = 1`, and
their names, as they were. -/
theorem importSet_defaultNames (latin1 : String → String) (now : Nat) (src : Schema)
    (st : ImportState) (s : TileSetRow) :
    defaultNames (importSet latin1 now src st s).1.w._db.TileSets =
      defaultNames st.w._db.TileSets := by
  unfold importSet
  cases hc : importTarget latin1 now st.w s with
  | none =>
    simp only [getDefaultTileSet_db]
  | some c =>
    simp only []
    have hcase := importTarget_some latin1 now st.w s c hc
    have hc2 : defaultNames c.2._db.TileSets = defaultNames st.w._db.TileSets := by
      rcases hcase with ⟨_, h2, _⟩ | ⟨_, h2⟩
      · rw [h2]
        exact defaultNames_append_other _ _ (by simp [importedRow])
      · rw [h2]
    split
    · exact hc2
    · simp only []
      by_cases hlt : st.currentCount < (importSetTiles now src s st c.1 c.2).currentCount
      · obtain ⟨n, hn⟩ := (importSetTiles_tileSets now src s st c.1 c.2).1 hlt
        rw [hn, ← hc2]
        unfold updateNumTiles
        apply defaultNames_map
        · intro r
          split <;> rfl
        · intro r _
          split <;> rfl
      · rw [(importSetTiles_tileSets now src s st c.1 c.2).2 hlt]
        rcases hcase with ⟨hs, h2, h1⟩ | ⟨hs, _⟩
        · rw [if_pos hs, h2, h1]
          exact congrArg defaultNames (filter_ne_append_new st.w._db.TileSets
            (importedRow now s (importSetName latin1 st.w s.name)
              (nextRowId (st.w._db.TileSets.map fun x : TileSetRow => x.setID))) (by rfl))
        · rw [if_neg hs]
          exact hc2

theorem importLoop_defaultNames (latin1 : String → String) (now : Nat) (src : Schema)
    (sets : List TileSetRow) : ∀ st : ImportState,
    defaultNames (importLoop latin1 now src sets st).w._db.TileSets =
      defaultNames st.w._db.TileSets := by
  induction sets with
  | nil => intro st; rfl
  | cons s sets ih =>
    intro st
    unfold importLoop
    split
    · rw [ih, importSet_defaultNames]
    · rw [importSet_defaultNames]

theorem importSets_merge_defaultNames (latin1 : String → String) (now : Nat) (w : Worker)
    (file : Option Schema) :
    defaultNames (w._importSets latin1 now file false).1._db.TileSets =
      defaultNames w._db.TileSets := by
  unfold Worker._importSets
  split
  · rfl
  · simp only [Bool.false_eq_true, if_false]
    unfold importMerge
    cases file with
    | none => rfl
    | some src =>
      simp only []
      have hst : defaultNames (importVisit latin1 now w src).w._db.TileSets =
          defaultNames w._db.TileSets := by
        unfold importVisit
        split
        · split
          · rw [importLoop_defaultNames]
          · rfl
        · rfl
      split
      · exact hst
      · exact hst

theorem run_defaultNames (uf : UrlFactory) (latin1 : String → String) (w : Worker)
    (op : WorkerOp) (hspare : op.sparesDefault w)
    (h : defaultNames w._db.TileSets = ["Default Tile Set"]) :
    defaultNames (w.run uf latin1 op)._db.TileSets = ["Default Tile Set"] := by
  cases op with
  | init now =>
    show defaultNames (w._init now (Schema.ofDB w._db))._db.TileSets = _
    rw [init_defaultNames now w h]
    exact h
  | saveTile now tile =>
    show defaultNames (w._saveTile now tile)._db.TileSets = _
    rw [saveTile_tileSets]
    exact h
  | createTileSet now set =>
    show defaultNames (w._createTileSet uf now set).1._db.TileSets = _
    rw [createTileSet_defaultNames]
    exact h
  | renameTileSet setID newName =>
    show defaultNames (w._renameTileSet setID newName).1._db.TileSets = _
    rw [renameTileSet_defaultNames w setID newName hspare.1 hspare.2]
    exact h
  | deleteTileSet setID =>
    show defaultNames (w._deleteTileSetTask setID).1._db.TileSets = _
    rw [deleteTileSetTask_defaultNames w setID hspare]
    exact h
  | pruneCache amount =>
    show defaultNames (w._pruneCache amount).1._db.TileSets = _
    rw [pruneCache_tileSets]
    exact h
  | reset now =>
    exact resetCacheDatabase_defaultNames now w h
  | importMerge now file =>
    show defaultNames (w._importSets latin1 now file false).1._db.TileSets = _
    rw [importSets_merge_defaultNames]
    exact h

theorem reachable_defaultNames (uf : UrlFactory) (latin1 : String → String) (w : Worker)
    (h : Reachable uf latin1 w) : defaultNames w._db.TileSets = ["Default Tile Set"] := by
  induction h with
  | created now sqlite => rfl
  | step w op _ hspare ih => exact run_defaultNames uf latin1 w op hspare ih

/-- C11 (amended). In every state reached from a freshly created schema by
starts of the worker, SaveTile, CreateTileSet, Prune, Reset, merge Import,
DeleteTileSet of sets other than a default one, and RenameTileSet of sets
other than a default one to a plain name (one that reads as text between
double quotes in the statement and holds no `%`), `TileSets` contains exactly
one row with `defaultSet = 1`, and that row is named "Default Tile Set". -/
theorem default_set_invariant (uf : UrlFactory) (latin1 : String → String) (w : Worker)
    (h : Reachable uf latin1 w) :
    (w._db.TileSets.filter fun r => r.defaultSet = 1).length = 1 ∧
    ∀ r ∈ w._db.TileSets, r.defaultSet = 1 → r.name = "Default Tile Set" := by
  have hnames := reachable_defaultNames uf latin1 w h
  unfold defaultNames at hnames
  constructor
  · have := congrArg List.length hnames
    simpa using this
  · intro r hr hd
    have hmem : r.name ∈ (w._db.TileSets.filter fun r => r.defaultSet = 1).map (·.name) :=
      List.mem_map.mpr ⟨r, List.mem_filter.mpr ⟨hr, by simpa using hd⟩, rfl⟩
    rw [hnames] at hmem
    simpa using hmem

/-- Witness of C11 (amended): a worker is created, saves a tile, creates the
set "S1", renames it and imports `alphaFile`. -/
theorem default_set_invariant_witness :
    ((((((createdWorker 1700000000).run sampleUrl id (.saveTile 1700000001 tileA)).run
        sampleUrl id (.createTileSet 1700000002 (planSet "S1"))).run
        sampleUrl id (.renameTileSet 2 "Alpha")).run
        sampleUrl id (.importMerge 1700000003 (some alphaFile)))._db.TileSets.filter
      fun r => r.defaultSet = 1).length = 1 :=
  (default_set_invariant sampleUrl id _
    (Reachable.step _ (.importMerge 1700000003 (some alphaFile))
      (Reachable.step _ (.renameTileSet 2 "Alpha")
        (Reachable.step _ (.createTileSet 1700000002 (planSet "S1"))
          (Reachable.step _ (.saveTile 1700000001 tileA)
            (Reachable.created 1700000000 {}) trivial)
          trivial)
        (by decide))
      trivial)).1

/-- Counterexample to C11 as stated: DeleteTileSet accepts the id of the
default set and leaves `TileSets` without a row with `defaultSet = 1`; and
after RenameTileSet of the default set the next start of the worker finds no
set named "Default Tile Set" and inserts a second row with `defaultSet = 1`. -/
theorem default_set_invariant_counterexample :
    ((createdWorker 1700000000)._db.TileSets.map fun r => (r.setID, r.name, r.defaultSet)) =
      [(1, "Default Tile Set", 1)] ∧
    (((createdWorker 1700000000).run sampleUrl id (.deleteTileSet 1))._db.TileSets.filter
      fun r => r.defaultSet = 1).length = 0 ∧
    (((((createdWorker 1700000000).run sampleUrl id (.renameTileSet 1 "Home")).run
        sampleUrl id (.init 1700000001))._db.TileSets.map
      fun r => (r.setID, r.name, r.defaultSet)) =
      [(1, "Home", 1), (2, "Default Tile Set", 1)]) := by
  decide

/-! ### Export followed by replace import -/

theorem sublist_dropLast {α : Type} {l₁ l₂ : List α} (h : l₁.Sublist l₂) :
    l₁.dropLast.Sublist l₂.dropLast := by
  have := (h.reverse.tail).reverse
  simpa [List.tail_reverse] using this

theorem gt_zero_of_ge {epsilon : Double} (heps : epsilon.ge (.fin 0) = true) :
    (Double.fin 0).gt epsilon = false := by
  cases epsilon with
  | nan => rfl
  | negInf => simp [Double.ge] at heps
  | posInf => rfl
  | fin q =>
    simp only [Double.ge, decide_eq_true_eq] at heps
    simp only [Double.gt, decide_eq_false_iff_not, not_lt]
    exact heps

/-- After the loop either nothing was found (`maxDistance = 0.0`, `index = 0`)
or `index` is one of the indices the loop visits. -/
theorem farthest_index {α : Type} (dist : α → α → α → Double) (points : List α)
    (first last : α) :
    farthest dist points first last = (.fin 0, 0) ∨
      (1 ≤ (farthest dist points first last).2 ∧
        (farthest dist points first last).2 + 1 < points.length) := by
  unfold farthest
  have key : ∀ (is : List Nat) (acc : Double × Nat),
      (∀ i ∈ is, 1 ≤ i ∧ i + 1 < points.length) →
      (acc = (.fin 0, 0) ∨ (1 ≤ acc.2 ∧ acc.2 + 1 < points.length)) →
      (is.foldl
        (fun acc i =>
          match points[i]? with
          | some p => if (dist p first last).gt acc.1 then (dist p first last, i) else acc
          | none => acc) acc = (.fin 0, 0) ∨
        (1 ≤ (is.foldl
          (fun acc i =>
            match points[i]? with
            | some p => if (dist p first last).gt acc.1 then (dist p first last, i) else acc
            | none => acc) acc).2 ∧
         (is.foldl
          (fun acc i =>
            match points[i]? with
            | some p => if (dist p first last).gt acc.1 then (dist p first last, i) else acc
            | none => acc) acc).2 + 1 < points.length)) := by
    intro is
    induction is with
    | nil => intro acc _ h; exact h
    | cons i is ih =>
      intro acc hrange hacc
      rw [List.foldl_cons]
      apply ih
      · exact fun j hj => hrange j (List.mem_cons_of_mem _ hj)
      · split
        · split
          · exact Or.inr (hrange i (List.mem_cons_self _ _))
          · exact hacc
        · exact hacc
  apply key
  · intro i hi
    rw [List.mem_range'_1] at hi
    omega
  · exact Or.inl rfl
/-- When `simplify` recurses for an `epsilon ≥ 0`, the index found by the loop
lies strictly inside the list. -/
theorem farthest_inside {α : Type} (dist : α → α → α → Double) (epsilon : Double)
    (heps : epsilon.ge (.fin 0) = true) (points : List α) (first last : α)
    (hgt : (farthest dist points first last).1.gt epsilon = true) :
    1 ≤ (farthest dist points first last).2 ∧
      (farthest dist points first last).2 + 1 < points.length := by
  rcases farthest_index dist points first last with h | h
  · rw [h, gt_zero_of_ge heps] at hgt
    cases hgt
  · exact h

/-- With enough fuel `simplify` returns, for every `epsilon ≥ 0`: the result is
a sublist of the points with the same first and last point, it has two
points or more when the input has, and it is the input when the input has
fewer than three points. -/
theorem simplify_spec {α : Type} (dist : α → α → α → Double) (epsilon : Double)
    (heps : epsilon.ge (.fin 0) = true) :
    ∀ (fuel : Nat) (points : List α), points.length < fuel →
    ∃ r, simplify dist epsilon fuel points = some r ∧ r.Sublist points ∧
      r.head? = points.head? ∧ r.getLast? = points.getLast? ∧
      (2 ≤ points.length → 2 ≤ r.length) ∧ (points.length < 3 → r = points) := by
  intro fuel
  induction fuel with
  | zero => intro points h; omega
  | succ fuel ih =>
    intro points hlen
    unfold simplify
    by_cases hshort : points.length < 3
    · rw [if_pos hshort]
      exact ⟨points, rfl, List.Sublist.refl _, rfl, rfl, fun h => h, fun _ => rfl⟩
    · rw [if_neg hshort]
      obtain ⟨first, rest, hpts⟩ : ∃ first rest, points = first :: rest := by
        cases points with
        | nil => simp at hshort
        | cons a l => exact ⟨a, l, rfl⟩
      have hne : points ≠ [] := by rw [hpts]; simp
      have hhead : points.head? = some first := by rw [hpts]; rfl
      have hlast : points.getLast? = some (points.getLast hne) := List.getLast?_eq_getLast _ hne
      rw [hhead, hlast]
      simp only []
      by_cases hgt : (farthest dist points first (points.getLast hne)).1.gt epsilon = true
      · rw [if_pos hgt]
        obtain ⟨h1, h2⟩ := farthest_inside dist epsilon heps points first _ hgt
        generalize (farthest dist points first (points.getLast hne)).2 = index at h1 h2
        have hl1 : (points.take (index + 1)).length = index + 1 := by
          rw [List.length_take]; omega
        have hl2 : (points.drop index).length = points.length - index := List.length_drop _ _
        obtain ⟨r1, e1, s1, hd1, _, len1, _⟩ := ih (points.take (index + 1)) (by omega)
        obtain ⟨r2, e2, s2, _, la2, len2, _⟩ := ih (points.drop index) (by omega)
        rw [e1, e2]
        simp only []
        have hr1 : 2 ≤ r1.length := len1 (by omega)
        have hr2 : 2 ≤ r2.length := len2 (by omega)
        have hdl : 1 ≤ r1.dropLast.length := by rw [List.length_dropLast]; omega
        refine ⟨_, rfl, ?_, ?_, ?_, ?_, ?_⟩
        · have hsub := sublist_dropLast s1
          rw [List.dropLast_take (by omega)] at hsub
          simp only [Nat.add_sub_cancel] at hsub
          have := List.Sublist.append hsub s2
          rwa [List.take_append_drop] at this
        · rw [List.head?_append, List.head?_dropLast, if_pos (by omega), hd1, List.head?_take,
            if_neg (by omega), hhead]
          rfl
        · rw [List.getLast?_append, la2, List.getLast?_drop, if_neg (by omega), hlast]
          rfl
        · intro _
          rw [List.length_append]
          omega
        · intro h
          omega
      · rw [if_neg hgt]
        refine ⟨_, rfl, ?_, rfl, ?_, fun _ => by simp, fun h => absurd h hshort⟩
        · have hz : points.getLast hne ∈ rest := by
            subst hpts
            have hrest : rest ≠ [] := by
              intro h
              rw [h] at hshort
              simp at hshort
            rw [List.getLast_cons hrest]
            exact List.getLast_mem hrest
          generalize points.getLast hne = z at hz
          rw [hpts]
          apply List.Sublist.cons₂
          rw [List.singleton_sublist]
          exact hz
        · simp [hlast]
/-- The result of `simplify` is the same for every bound on the depth that is
larger than the number of points. -/
theorem simplify_fuel {α : Type} (dist : α → α → α → Double) (epsilon : Double)
    (heps : epsilon.ge (.fin 0) = true) :
    ∀ (fuel fuel' : Nat) (points : List α), points.length < fuel → points.length < fuel' →
    simplify dist epsilon fuel points = simplify dist epsilon fuel' points := by
  intro fuel
  induction fuel with
  | zero => intro fuel' points h; omega
  | succ fuel ih =>
    intro fuel' points hlen hlen'
    cases fuel' with
    | zero => omega
    | succ fuel' =>
      unfold simplify
      by_cases hshort : points.length < 3
      · rw [if_pos hshort, if_pos hshort]
      · rw [if_neg hshort, if_neg hshort]
        split
        · rename_i first last _ _
          by_cases hgt : (farthest dist points first last).1.gt epsilon = true
          · rw [if_pos hgt, if_pos hgt]
            obtain ⟨h1, h2⟩ := farthest_inside dist epsilon heps points first last hgt
            have hl1 : (points.take ((farthest dist points first last).2 + 1)).length =
                (farthest dist points first last).2 + 1 := by
              rw [List.length_take]; omega
            have hl2 : (points.drop (farthest dist points first last).2).length =
                points.length - (farthest dist points first last).2 := List.length_drop _ _
            rw [ih fuel' (points.take ((farthest dist points first last).2 + 1))
                (by omega) (by omega),
              ih fuel' (points.drop (farthest dist points first last).2) (by omega) (by omega)]
          · rw [if_neg hgt, if_neg hgt]
        · rfl

/-- C24. For every `epsilon ≥ 0` and every distance function, `simplify`
returns (with any bound on the depth above the number of points) a sublist of
its input, so the same points in the same order, whose first point is the
first point of the input and whose last point is the last point of the
input; an input of fewer than three points is returned as it is. -/
theorem simplify_keeps_endpoints {α : Type} (dist : α → α → α → Double) (epsilon : Double)
    (heps : epsilon.ge (.fin 0) = true) (points : List α) (fuel : Nat)
    (hfuel : points.length < fuel) :
    ∃ r, simplify dist epsilon fuel points = some r ∧ r.Sublist points ∧
      r.head? = points.head? ∧ r.getLast? = points.getLast? ∧
      (points.length < 3 → r = points) := by
  obtain ⟨r, h1, h2, h3, h4, _, h6⟩ := simplify_spec dist epsilon heps fuel points hfuel
  exact ⟨r, h1, h2, h3, h4, h6⟩

/-- Witness of C24: seven points on a line of numbers, the distance of a point
being its own value, `epsilon = 2`. -/
theorem simplify_keeps_endpoints_witness :
    ∃ r, simplify (fun (p _ _ : Nat) => Double.fin p) (.fin 2) 10 [1, 2, 5, 3, 1, 1, 4] = some r ∧
      r.Sublist [1, 2, 5, 3, 1, 1, 4] ∧
      r.head? = [1, 2, 5, 3, 1, 1, 4].head? ∧ r.getLast? = [1, 2, 5, 3, 1, 1, 4].getLast? ∧
      ([1, 2, 5, 3, 1, 1, 4].length < 3 → r = [1, 2, 5, 3, 1, 1, 4]) :=
  simplify_keeps_endpoints (fun (p _ _ : Nat) => Double.fin p) (.fin 2) (by decide)
    [1, 2, 5, 3, 1, 1, 4] 10 (by decide)

/-- C25. For every `epsilon ≥ 0`, every distance function and every list of
points: when the loop of `simplify` ends with `maxDistance > epsilon`, the
index it found lies strictly between the first and the last index, so the
two lists of the recursive calls are strictly shorter than the input; hence
`simplify` returns under every bound on the depth above the number of points,
with a result that does not depend on the bound. -/
theorem simplify_terminates {α : Type} (dist : α → α → α → Double) (epsilon : Double)
    (heps : epsilon.ge (.fin 0) = true) (points : List α) :
    (∀ first last : α, (farthest dist points first last).1.gt epsilon = true →
      0 < (farthest dist points first last).2 ∧
      (farthest dist points first last).2 < points.length - 1 ∧
      (points.take ((farthest dist points first last).2 + 1)).length < points.length ∧
      (points.drop (farthest dist points first last).2).length < points.length) ∧
    (∀ fuel, points.length < fuel → (simplify dist epsilon fuel points).isSome = true) ∧
    (∀ fuel fuel', points.length < fuel → points.length < fuel' →
      simplify dist epsilon fuel points = simplify dist epsilon fuel' points) := by
  refine ⟨?_, ?_, fun fuel fuel' => simplify_fuel dist epsilon heps fuel fuel' points⟩
  · intro first last hgt
    obtain ⟨h1, h2⟩ := farthest_inside dist epsilon heps points first last hgt
    rw [List.length_take, List.length_drop]
    omega
  · intro fuel hfuel
    obtain ⟨r, h, _⟩ := simplify_spec dist epsilon heps fuel points hfuel
    rw [h]
    rfl

/-- Witness of C25: the seven points of the witness of C24; the bounds 8 and
20 give the same four points. -/
theorem simplify_terminates_witness :
    (simplify (fun (p _ _ : Nat) => Double.fin p) (.fin 2) 8 [1, 2, 5, 3, 1, 1, 4]).isSome = true ∧
    simplify (fun (p _ _ : Nat) => Double.fin p) (.fin 2) 8 [1, 2, 5, 3, 1, 1, 4] =
      simplify (fun (p _ _ : Nat) => Double.fin p) (.fin 2) 20 [1, 2, 5, 3, 1, 1, 4] :=
  have h := simplify_terminates (fun (p _ _ : Nat) => Double.fin p) (.fin 2) (by decide)
    [1, 2, 5, 3, 1, 1, 4]
  ⟨h.2.1 8 (by decide), h.2.2 8 20 (by decide) (by decide)⟩
/-! ### The totals timer -/

/-- C21. A round of the worker loop that takes a task from the queue: with `d`
the number of tasks queued after the task has run, `_updateTimeout` becomes
`kLongTimeout` when `d > 100`, `kShortTimeout` when `d < 25`, and keeps its
value when `25 ≤ d ≤ 100`; `_updateTotals` runs exactly when the database is
valid after the task and `d = 0` or the timer has expired for that timeout;
the worker is then the worker after the task with its totals recomputed, and
else the worker after the task. -/
theorem runRound_timer (kShortTimeout kLongTimeout : Int)
    (runTask : QGCMapTask → Worker → Worker) (arrived : List QGCMapTask)
    (hasExpired : Int → Bool) (q : QGCCacheWorker) (_updateTimeout : Int)
    (task : QGCMapTask) (rest : List QGCMapTask) (hq : q._taskQueue = task :: rest) :
    ∃ round, q.runRound kShortTimeout kLongTimeout runTask arrived hasExpired _updateTimeout =
        some round ∧
      round.q._taskQueue = rest ++ arrived ∧
      (100 < (rest ++ arrived).length → round._updateTimeout = kLongTimeout) ∧
      ((rest ++ arrived).length < 25 → round._updateTimeout = kShortTimeout) ∧
      (25 ≤ (rest ++ arrived).length → (rest ++ arrived).length ≤ 100 →
        round._updateTimeout = _updateTimeout) ∧
      (round.updatedTotals = true ↔
        (runTask task q.toWorker)._valid = true ∧
          ((rest ++ arrived).length = 0 ∨ hasExpired round._updateTimeout = true)) ∧
      round.q.toWorker =
        (if round.updatedTotals then (runTask task q.toWorker)._updateTotals
         else runTask task q.toWorker) := by
  have hdq : q.dequeue = some (task, { q with _taskQueue := rest }) := by
    unfold QGCCacheWorker.dequeue
    rw [hq]
  unfold QGCCacheWorker.runRound
  rw [hdq]
  simp only []
  by_cases hc : (rest ++ arrived).length = 0 ∨
      hasExpired (if (rest ++ arrived).length > 100 then kLongTimeout
        else if (rest ++ arrived).length < 25 then kShortTimeout else _updateTimeout) = true
  · rw [if_pos hc]
    by_cases hv : (runTask task q.toWorker)._valid = true
    · rw [if_pos hv]
      refine ⟨_, rfl, rfl, ?_, ?_, ?_, ?_, ?_⟩
      · intro h; simp only [if_pos h]
      · intro h; simp only [if_neg (show ¬ (rest ++ arrived).length > 100 by omega), if_pos h]
      · intro h1 h2
        simp only [if_neg (show ¬ (rest ++ arrived).length > 100 by omega),
          if_neg (show ¬ (rest ++ arrived).length < 25 by omega)]
      · exact ⟨fun _ => ⟨hv, hc⟩, fun _ => rfl⟩
      · simp only [if_true]
    · rw [if_neg hv]
      refine ⟨_, rfl, rfl, ?_, ?_, ?_, ?_, ?_⟩
      · intro h; simp only [if_pos h]
      · intro h; simp only [if_neg (show ¬ (rest ++ arrived).length > 100 by omega), if_pos h]
      · intro h1 h2
        simp only [if_neg (show ¬ (rest ++ arrived).length > 100 by omega),
          if_neg (show ¬ (rest ++ arrived).length < 25 by omega)]
      · exact ⟨fun h => (by cases h), fun h => absurd h.1 hv⟩
      · simp
  · rw [if_neg hc]
    refine ⟨_, rfl, rfl, ?_, ?_, ?_, ?_, ?_⟩
    · intro h; simp only [if_pos h]
    · intro h; simp only [if_neg (show ¬ (rest ++ arrived).length > 100 by omega), if_pos h]
    · intro h1 h2
      simp only [if_neg (show ¬ (rest ++ arrived).length > 100 by omega),
        if_neg (show ¬ (rest ++ arrived).length < 25 by omega)]
    · exact ⟨fun h => (by cases h), fun h => absurd h.2 hc⟩
    · simp

/-- Witness of C21: the worker with two queued tasks runs a round with the
timeouts 2000 and 5000; one task stays queued, so the timeout is the short
one. -/
theorem runRound_timer_witness :
    ∃ round, queuedWorker.runRound 2000 5000 (fun _ w => w) [] (fun t => decide (t < 3000)) 5000 =
        some round ∧
      round.q._taskQueue = [{ id := 2, type := .taskPruneCache }] ++ [] ∧
      (([{ id := 2, type := .taskPruneCache }] ++ [] : List QGCMapTask).length < 25 →
        round._updateTimeout = 2000) :=
  (runRound_timer 2000 5000 (fun _ w => w) [] (fun t => decide (t < 3000)) queuedWorker 5000
    { id := 1, type := .taskFetchTile } [{ id := 2, type := .taskPruneCache }] rfl).imp
    fun _ h => ⟨h.1, h.2.1, h.2.2.2.1⟩
/-! ### Referential integrity -/

/-- C23, evaluation of the code: a freshly created cache saves the tile "A"
into its default set and is then pruned by one byte.  `_pruneCache` deletes
the tile from `Tiles` and no statement of it touches `SetTiles`, so the
membership row of the deleted tile stays.  The next tile saved, "B", is given
the free `tileID` 1 again and so inherits that row next to its own: it counts
twice in the default set, is no longer unique to it, and a later Prune does
not select it. -/
theorem pruneCache_leaves_membership_of_deleted_tile :
    (((createdWorker 1700000000).run sampleUrl id (.saveTile 1700000001 tileA))._db.Tiles.map
      (·.tileID) = [1]) ∧
    ((createdWorker 1700000000).run sampleUrl id (.saveTile 1700000001 tileA))._db.SetTiles =
      [{ setID := 1, tileID := 1 }] ∧
    (((createdWorker 1700000000).run sampleUrl id (.saveTile 1700000001 tileA)).run sampleUrl id
      (.pruneCache 1))._db.Tiles = [] ∧
    (((createdWorker 1700000000).run sampleUrl id (.saveTile 1700000001 tileA)).run sampleUrl id
      (.pruneCache 1))._db.SetTiles = [{ setID := 1, tileID := 1 }] ∧
    ((((createdWorker 1700000000).run sampleUrl id (.saveTile 1700000001 tileA)).run sampleUrl id
      (.pruneCache 1)).run sampleUrl id (.saveTile 1700000002 tileB))._db.Tiles.map
      (fun t => (t.tileID, t.hash)) = [(1, "B")] ∧
    ((((createdWorker 1700000000).run sampleUrl id (.saveTile 1700000001 tileA)).run sampleUrl id
      (.pruneCache 1)).run sampleUrl id (.saveTile 1700000002 tileB))._db.SetTiles =
      [{ setID := 1, tileID := 1 }, { setID := 1, tileID := 1 }] ∧
    (((((createdWorker 1700000000).run sampleUrl id (.saveTile 1700000001 tileA)).run sampleUrl id
      (.pruneCache 1)).run sampleUrl id (.saveTile 1700000002 tileB)).run sampleUrl id
      (.pruneCache 100))._db.Tiles.map (fun t => (t.tileID, t.hash)) = [(1, "B")] := by
  refine ⟨by decide, by decide, by decide, by decide, by decide, by decide, by decide⟩

/-! ### Sets left by the merge import -/

end QGC
